import Mathlib

/-!
Verification development for a multi-tenant event-registration web
application.  The system persists data in a spreadsheet-backed store:
a `companies` sheet (one row per company tenant) and one sheet per
company, each holding named event sub-tables (a one-cell title row,
a header row, a status row carrying the event image and enabled flag,
then one row per registrant).

The REST route handlers (`/api/companies`, `/api/events`,
`/api/events/register`) are embedded below as pure functions over an
explicit store.  The thin data-access layer (`getSheetData`,
`appendToSheet`, `createSheet`, `deleteRow`, `createTable`,
`getTableData`, `updateTableData`, `deleteTable`, `addToTable`) is not
part of the handler sources; those operations are modelled from the
specification's description of the store ("rows/tables emulating a
database", "a named sub-table within the company's sheet, with a fixed
header row"), each with a doc comment saying exactly what is modelled.
-/

/-- A spreadsheet row: a list of string cells. -/
abbrev Row := List String

/-- A sheet: a list of rows. -/
abbrev Sheet := List Row

/-- The whole store: named sheets. -/
abbrev Store := List (String × Sheet)

/-- Reading cell `i` of a row.  JavaScript `row[i]` yields `undefined`
past the end; every consumer in the sources compares the cell against a
non-empty string or uses `||`-defaulting, for which `undefined` and the
empty string behave identically, so missing cells are read as `""`. -/
def cell (r : Row) (i : Nat) : String := r.getD i ""

/-- Pad a row with empty cells up to length `n` (JavaScript arrays grow
on out-of-range assignment; holes read back as `undefined`, i.e. `""`
for our consumers). -/
def padTo (r : Row) (n : Nat) : Row := r ++ List.replicate (n - r.length) ""

/-- JavaScript assignment `row[i] = v`, growing the row if needed. -/
def setCell (r : Row) (i : Nat) (v : String) : Row := (padTo r (i + 1)).set i v

/-- JavaScript truthiness of an optional string request field:
`undefined`, missing and `""` are falsy. -/
def truthy : Option String → Bool
  | none => false
  | some s => s ≠ ""

/-- Numeric value of a hexadecimal digit, as used by percent-decoding. -/
def hexVal (c : Char) : Option Nat :=
  if '0' ≤ c ∧ c ≤ '9' then some (c.toNat - 48)
  else if 'A' ≤ c ∧ c ≤ 'F' then some (c.toNat - 55)
  else if 'a' ≤ c ∧ c ≤ 'f' then some (c.toNat - 87)
  else none

/-- Modelled from the spec: the JavaScript runtime's `decodeURIComponent`
(the handlers call it on company names; it is not repository code).
Percent-escapes `%XY` are decoded byte-wise; a malformed escape raises
`URIError`, modelled as `none` (the routes' catch-all turns it into a
500 response).  Multi-byte UTF-8 recombination is not modelled; no
claim depends on it. -/
def percentDecode : List Char → Option (List Char)
  | [] => some []
  | '%' :: h :: l :: rest => do
      let a ← hexVal h
      let b ← hexVal l
      let r ← percentDecode rest
      pure (Char.ofNat (16 * a + b) :: r)
  | '%' :: _ => none
  | c :: rest => (percentDecode rest).map (c :: ·)

/-- `decodeURIComponent` on a string. -/
def decodeURIComponent (s : String) : Option String :=
  (percentDecode s.toList).map List.asString

/-- The whitespace class of the JavaScript regex `\s` (the characters
that can occur in the strings this development manipulates). -/
def jsSpace (c : Char) : Bool :=
  c = ' ' ∨ c = '\t' ∨ c = '\n' ∨ c = '\r' ∨ c = '\x0b' ∨ c = '\x0c'

/-- The email validation of the registration route, the regex
`/^[^\s@]+@[^\s@]+\.[^\s@]+$/`: exactly one `@`; a non-empty run of
non-space non-`@` characters before it; after it a non-empty run of
non-space non-`@` characters containing a `.` that is neither its first
nor its last character. -/
def emailOk (s : String) : Bool :=
  let cs := s.toList
  cs.count '@' = 1 ∧
  (let a := cs.takeWhile (· ≠ '@')
   let b := (cs.dropWhile (· ≠ '@')).drop 1
   a ≠ [] ∧ a.all (fun c => ¬ jsSpace c) ∧ b.all (fun c => ¬ jsSpace c) ∧
   ((b.drop 1).dropLast).contains '.')

/-- The phone validation of the registration route, the regex
`/^\d{10,15}$/`: 10 to 15 decimal digits. -/
def phoneOk (s : String) : Bool :=
  s.toList.all (fun c => '0' ≤ c ∧ c ≤ '9') ∧ 10 ≤ s.length ∧ s.length ≤ 15

/-- Modelled from the spec: `getSheetData` resolves a sheet by name
(`none` models the thrown error for a missing sheet, which every
caller catches). -/
def lookupSheet (st : Store) (n : String) : Option Sheet :=
  (st.find? (fun p => p.1 = n)).map (·.2)

/-- Replace the contents of the named sheet. -/
def setSheet (st : Store) (n : String) (sh : Sheet) : Store :=
  st.map (fun p => if p.1 = n then (n, sh) else p)

/-- Modelled from the spec: `createSheet` adds a new empty sheet (no
effect when the name is already taken). -/
def createSheet (st : Store) (n : String) : Store :=
  if (lookupSheet st n).isSome then st else st ++ [(n, [])]

/-- Modelled from the spec: `appendToSheet` appends rows at the bottom
of the named sheet. -/
def appendToSheet (st : Store) (n : String) (rows : List Row) : Store :=
  match lookupSheet st n with
  | some sh => setSheet st n (sh ++ rows)
  | none => st

/-- Modelled from the spec: `deleteRow` removes one row, addressed by
1-based sheet row number (row 1 is the sheet's first row), the
convention documented at the `PATCH /api/companies` call site
("+2 because of 0-indexing and header row"). -/
def deleteRow (st : Store) (n : String) (idx1 : Nat) : Store :=
  match lookupSheet st n with
  | some sh => setSheet st n (sh.take (idx1 - 1) ++ sh.drop idx1)
  | none => st

/-- A row is a table title row when it consists of a single cell (the
event name); this is how the events route itself recognises tables. -/
def isTitle (r : Row) : Bool := r.length = 1

/-- Modelled from the spec: the rows of the named sub-table (header row
first), i.e. the rows following the one-cell title row `[e]` up to the
next title row or the end of the sheet; `none` when no such title row
exists. -/
def tableRows : Sheet → String → Option (List Row)
  | [], _ => none
  | r :: rest, e =>
    if r = [e] then some (rest.takeWhile (fun q => ¬ isTitle q)) else tableRows rest e

/-- Modelled from the spec: `getTableData` reads a company's event
sub-table from the store. -/
def getTableData (st : Store) (c e : String) : Option (List Row) :=
  (lookupSheet st c).bind (fun sh => tableRows sh e)

/-- Insert a row at the end of the current table region: before the
next title row, or at the end of the sheet. -/
def insertAfterTable : Sheet → Row → Sheet
  | [], x => [x]
  | q :: rest, x =>
    if isTitle q then x :: q :: rest else q :: insertAfterTable rest x

/-- Append a row at the bottom of the named sub-table of a sheet. -/
def addRowToTable : Sheet → String → Row → Sheet
  | [], _, _ => []
  | r :: rest, e, x =>
    if r = [e] then r :: insertAfterTable rest x else r :: addRowToTable rest e x

/-- Modelled from the spec: `addToTable` appends one row at the bottom
of the named sub-table (no effect when the table is missing; the route
only calls it after `getTableData` succeeded). -/
def addToTable (st : Store) (c e : String) (x : Row) : Store :=
  match lookupSheet st c with
  | none => st
  | some sh => setSheet st c (addRowToTable sh e x)

/-- Within the rows following a title row, set table row `idx`
(0 = header row) to `x`, or insert `x` at the end of the table when
`idx` is past its last row (the event-creation route relies on this to
add the status row right after the header). -/
def setWithin : Sheet → Nat → Row → Sheet
  | [], _, x => [x]
  | q :: rest, idx, x =>
    if isTitle q then x :: q :: rest
    else
      match idx with
      | 0 => x :: rest
      | n + 1 => q :: setWithin rest n x

/-- Write table row `idx` of the named sub-table of a sheet. -/
def updInTable : Sheet → String → Nat → Row → Sheet
  | [], _, _, _ => []
  | r :: rest, e, idx, x =>
    if r = [e] then r :: setWithin rest idx x else r :: updInTable rest e idx x

/-- Modelled from the spec: `updateTableData` writes table row `idx`
(0-based, 0 = header row) of the named sub-table. -/
def updateTableData (st : Store) (c e : String) (idx : Nat) (x : Row) : Store :=
  match lookupSheet st c with
  | none => st
  | some sh => setSheet st c (updInTable sh e idx x)

/-- Modelled from the spec: `createTable` appends a named sub-table
(title row then header row) at the bottom of the company's sheet (no
effect when the company sheet is missing; the real helper would throw
and the route would answer 500). -/
def createTable (st : Store) (c e : String) (headers : Row) : Store :=
  match lookupSheet st c with
  | none => st
  | some sh => setSheet st c (sh ++ [[e], headers])

/-- Remove the named sub-table (title row and table rows) from a sheet. -/
def delTable : Sheet → String → Sheet
  | [], _ => []
  | r :: rest, e =>
    if r = [e] then rest.dropWhile (fun q => ¬ isTitle q) else r :: delTable rest e

/-- Modelled from the spec: `deleteTable` removes the named sub-table
(title row and all its rows) from the company's sheet. -/
def deleteTable (st : Store) (c e : String) : Store :=
  match lookupSheet st c with
  | none => st
  | some sh => setSheet st c (delTable sh e)

/-- First index satisfying a predicate (JavaScript `Array.findIndex`,
`none` for `-1`). -/
def findRowIdx (p : Row → Bool) : List Row → Option Nat
  | [] => none
  | r :: rest => if p r then some 0 else (findRowIdx p rest).map (· + 1)

/-- First index of an equal element (JavaScript `Array.indexOf`,
`none` for `-1`). -/
def idxOfCell (v : String) : List String → Option Nat
  | [] => none
  | c :: rest => if c = v then some 0 else (idxOfCell v rest).map (· + 1)

/-! ## HTTP-level types -/

/-- The observable part of a `NextResponse.json` reply: the HTTP status
code and the `error` field of the JSON body (absent on success). -/
structure HttpResponse where
  status : Nat
  error : Option String
deriving Repr, DecidableEq

/-- An authenticated session as the handlers read it:
`session.user.type` (`"admin"` or `"company"`) and `session.user.name`
(the company name for company users). -/
structure Session where
  type : String
  name : String
deriving Repr, DecidableEq

/-- The companies handlers' gate `!session || session.user.type !== 'admin'`. -/
def isAdmin : Option Session → Bool
  | none => false
  | some s => s.type = "admin"

/-- Result of a state-changing handler: the response and the store
after the request. -/
structure ApiRes where
  resp : HttpResponse
  store : Store
deriving Repr, DecidableEq

/-! ## POST /api/events/register (src/app/api/events/register/route.ts) -/

/-- The nine request-body fields of the registration route; `none`
models a field absent from the JSON body (JavaScript `undefined`). -/
structure RegisterReq where
  companyName : Option String
  eventName : Option String
  name : Option String
  phone : Option String
  email : Option String
  gender : Option String
  college : Option String
  status : Option String
  nationalId : Option String
deriving Repr, DecidableEq

/-- `decodeURIComponent(rawCompanyName)`: an absent field is the value
`undefined`, which JavaScript coerces to the string `"undefined"`
before percent-decoding (it contains no `%`, so decoding succeeds). -/
def decodeCompanyName (req : RegisterReq) : Option String :=
  match req.companyName with
  | none => some "undefined"
  | some s => decodeURIComponent s

/-- The guard of the route's `Validate required fields` block (note it
tests the decoded company name, the other eight fields raw). -/
def missingFields (req : RegisterReq) (cn : String) : Bool :=
  cn = "" ∨ ¬ truthy req.eventName ∨ ¬ truthy req.name ∨ ¬ truthy req.phone ∨
  ¬ truthy req.email ∨ ¬ truthy req.gender ∨ ¬ truthy req.college ∨
  ¬ truthy req.status ∨ ¬ truthy req.nationalId

/-- The route's disabled-event test: when the table has a row after the
header and that row is non-empty, its last cell is the enabled flag. -/
def eventDisabled (t : List Row) : Bool :=
  t.length > 1 ∧ (t.getD 1 []).length > 0 ∧
  cell (t.getD 1 []) ((t.getD 1 []).length - 1) = "false"

/-- The row appended for a successful registration: the seven submitted
fields, the timestamp, and an empty image cell. -/
def registrationRow (req : RegisterReq) (now : String) : Row :=
  [req.name.getD "", req.phone.getD "", req.email.getD "", req.gender.getD "",
   req.college.getD "", req.status.getD "", req.nationalId.getD "", now, ""]

/-- `POST /api/events/register`.  `now` stands for
`new Date().toISOString()`.  The route takes no session. -/
def registerPOST (now : String) (st : Store) (req : RegisterReq) : ApiRes :=
  match decodeCompanyName req with
  | none => ⟨⟨500, some "Failed to register for event"⟩, st⟩
  | some cn =>
    if missingFields req cn then ⟨⟨400, some "All fields are required"⟩, st⟩
    else if ¬ emailOk (req.email.getD "") then
      ⟨⟨400, some "Invalid email format"⟩, st⟩
    else if ¬ phoneOk (req.phone.getD "") then
      ⟨⟨400, some "Invalid phone number format"⟩, st⟩
    else
      match lookupSheet st "companies" with
      | none => ⟨⟨404, some "Company not found"⟩, st⟩
      | some companiesData =>
        match (companiesData.drop 1).find? (fun r => cell r 1 = cn) with
        | none => ⟨⟨404, some "Company not found"⟩, st⟩
        | some company =>
          if cell company 5 = "false" then
            ⟨⟨403, some "Registration is unavailable for this company"⟩, st⟩
          else
            match lookupSheet st cn with
            | none => ⟨⟨404, some "Company not found"⟩, st⟩
            | some sheetData =>
              if sheetData.isEmpty then ⟨⟨404, some "Company not found"⟩, st⟩
              else
                match getTableData st cn (req.eventName.getD "") with
                | none => ⟨⟨404, some "Event not found"⟩, st⟩
                | some tableData =>
                  if tableData.isEmpty then ⟨⟨404, some "Event not found"⟩, st⟩
                  else if eventDisabled tableData then
                    ⟨⟨403, some "Registration has ended for this event"⟩, st⟩
                  else if (tableData.drop 1).any
                      (fun r => cell r 2 = req.email.getD "" ∨
                                cell r 1 = req.phone.getD "") then
                    ⟨⟨400, some "You are already registered for this event"⟩, st⟩
                  else
                    ⟨⟨200, none⟩,
                     addToTable st cn (req.eventName.getD "")
                       (registrationRow req now)⟩

/-! ## /api/companies handlers -/

/-- One element of the `GET /api/companies` response body: the password
column (index 3) is deliberately not part of this type. -/
structure CompanyOut where
  id : String
  name : String
  username : String
  image : Option String
  enabled : Bool
deriving Repr, DecidableEq

/-- `row[4] || null`: the empty cell (or a missing one) becomes `null`. -/
def optCell (r : Row) (i : Nat) : Option String :=
  if cell r i = "" then none else some (cell r i)

/-- The row-to-object mapping of `GET /api/companies`. -/
def rowToCompanyOut (r : Row) : CompanyOut :=
  ⟨cell r 0, cell r 1, cell r 2, optCell r 4, cell r 5 ≠ "false"⟩

/-- Result of `GET /api/companies`. -/
structure CompaniesGetRes where
  resp : HttpResponse
  companies : List CompanyOut
  store : Store
deriving Repr, DecidableEq

/-- `GET /api/companies`: admin-gated listing; it performs no writes,
so it returns the store unchanged by construction. -/
def companiesGET (sess : Option Session) (st : Store) : CompaniesGetRes :=
  if ¬ isAdmin sess then ⟨⟨401, some "Unauthorized"⟩, [], st⟩
  else
    match lookupSheet st "companies" with
    | none => ⟨⟨500, some "Failed to get companies"⟩, [], st⟩
    | some data => ⟨⟨200, none⟩, (data.drop 1).map rowToCompanyOut, st⟩

/-- Body of `POST /api/companies`. -/
structure CompanyPostReq where
  name : Option String
  username : Option String
  password : Option String
  image : Option String
deriving Repr, DecidableEq

/-- The header row written when the companies sheet is first created. -/
def companiesHeader : Row := ["ID", "Name", "Username", "Password", "Image"]

/-- `POST /api/companies`.  `hash` stands for `bcrypt.hash(·, 10)` and
`upload` for the external image host (`fileName → image → url`,
`none` when the upload reports failure); `now` stands for
`Date.now()` as a string. -/
def companiesPOST (hash : String → String) (upload : String → String → Option String)
    (now : String) (sess : Option Session) (st : Store) (req : CompanyPostReq) : ApiRes :=
  if ¬ isAdmin sess then ⟨⟨401, some "Unauthorized"⟩, st⟩
  else if ¬ truthy req.name ∨ ¬ truthy req.username ∨ ¬ truthy req.password then
    ⟨⟨400, some "Name, username, and password are required"⟩, st⟩
  else
    let st1 := if (lookupSheet st "companies").isSome then st
      else appendToSheet (createSheet st "companies") "companies" [companiesHeader]
    match lookupSheet st1 "companies" with
    | none => ⟨⟨500, some "Failed to create company"⟩, st1⟩
    | some existingData =>
      if (existingData.drop 1).any (fun r => cell r 2 = req.username.getD "") then
        ⟨⟨400, some "Username already exists"⟩, st1⟩
      else
        let id := "company_" ++ now
        let hashedPassword := hash (req.password.getD "")
        let imageUrl : Option String :=
          if truthy req.image then
            upload ("company_" ++ id ++ "_" ++ now ++ ".jpg") (req.image.getD "")
          else none
        let st2 := appendToSheet st1 "companies"
          [[id, req.name.getD "", req.username.getD "", hashedPassword, imageUrl.getD ""]]
        ⟨⟨200, none⟩, createSheet st2 (req.name.getD "")⟩

/-- `DELETE /api/companies?id={id}` (`id = none` models an absent query
parameter, which `searchParams.get` returns as `null`). -/
def companiesDELETE (sess : Option Session) (st : Store) (id : Option String) : ApiRes :=
  if ¬ isAdmin sess then ⟨⟨401, some "Unauthorized"⟩, st⟩
  else if ¬ truthy id then ⟨⟨400, some "Company ID is required"⟩, st⟩
  else
    match lookupSheet st "companies" with
    | none => ⟨⟨500, some "Failed to delete company"⟩, st⟩
    | some data =>
      match findRowIdx (fun r => cell r 0 = id.getD "") (data.drop 1) with
      | none => ⟨⟨404, some "Company not found"⟩, st⟩
      | some companyIndex => ⟨⟨200, none⟩, deleteRow st "companies" (companyIndex + 1)⟩

/-- Body of `PATCH /api/companies`: all fields optional; `enabled` is a
boolean where only `undefined` (`none`) means "not provided". -/
structure CompanyPatchReq where
  id : Option String
  name : Option String
  username : Option String
  password : Option String
  image : Option String
  enabled : Option Bool
deriving Repr, DecidableEq

/-- The field-by-field update of the addressed company row performed
by `PATCH /api/companies`: name, username, (hashed) password, uploaded
image URL and enabled flag are written only when the request provides
them (truthily; `enabled` when not `undefined`). -/
def patchedCompanyRow (hash : String → String) (upload : String → String → Option String)
    (now : String) (idv : String) (req : CompanyPatchReq) (cur : Row) : Row :=
  let u1 := if truthy req.name then setCell cur 1 (req.name.getD "") else cur
  let u2 := if truthy req.username then setCell u1 2 (req.username.getD "") else u1
  let u3 := if truthy req.password then setCell u2 3 (hash (req.password.getD "")) else u2
  let u4 := if truthy req.image then
      match upload ("company_" ++ idv ++ "_" ++ now ++ ".jpg") (req.image.getD "") with
      | some url => setCell u3 4 url
      | none => u3
    else u3
  match req.enabled with
  | some b => setCell u4 5 (if b then "true" else "false")
  | none => u4

/-- `PATCH /api/companies`: updates the addressed company row by
deleting it and appending the updated row at the bottom. -/
def companiesPATCH (hash : String → String) (upload : String → String → Option String)
    (now : String) (sess : Option Session) (st : Store) (req : CompanyPatchReq) : ApiRes :=
  if ¬ isAdmin sess then ⟨⟨401, some "Unauthorized"⟩, st⟩
  else if ¬ truthy req.id then ⟨⟨400, some "Company ID is required"⟩, st⟩
  else
    match lookupSheet st "companies" with
    | none => ⟨⟨500, some "Failed to update company"⟩, st⟩
    | some data =>
      let companies := data.drop 1
      let idv := req.id.getD ""
      match findRowIdx (fun r => cell r 0 = idv) companies with
      | none => ⟨⟨404, some "Company not found"⟩, st⟩
      | some companyIndex =>
        let cur := companies.getD companyIndex []
        if truthy req.username ∧ req.username.getD "" ≠ cell cur 2 ∧
            companies.any (fun r => cell r 2 = req.username.getD "" ∧ cell r 0 ≠ idv) then
          ⟨⟨400, some "Username already exists"⟩, st⟩
        else
          ⟨⟨200, none⟩,
           appendToSheet (deleteRow st "companies" (companyIndex + 2)) "companies"
             [patchedCompanyRow hash upload now idv req cur]⟩

/-! ## /api/events handlers -/

/-- One element of the `GET /api/events` response body. -/
structure EventOut where
  id : String
  name : String
  image : Option String
  enabled : Bool
  registrations : Nat
deriving Repr, DecidableEq

/-- Result of `GET /api/events`. -/
structure EventsGetRes where
  resp : HttpResponse
  events : List EventOut
  store : Store
deriving Repr, DecidableEq

/-- JavaScript `s.startsWith('ID')` (`String.startsWith` of the Lean
core library is compiled code that the kernel cannot evaluate, so the
two-character check is spelt out). -/
def startsWithID (s : String) : Bool :=
  match s.toList with
  | 'I' :: 'D' :: _ => true
  | _ => false

/-- The event enumeration of `GET /api/events`: a row with exactly one
non-empty cell not starting with `ID` is a table title; the next row
holds the headers, the row after that the image URL and enabled flag;
the registration count is `Math.max(0, tableLength - 1)` (`none` from
`getTableData`, i.e. the thrown error, is caught and leaves 0). -/
def sheetEvents (data : Sheet) : List EventOut :=
  (List.range data.length).filterMap (fun i =>
    let r := data.getD i []
    if r.length = 1 ∧ cell r 0 ≠ "" ∧ ¬ startsWithID (cell r 0) then
      let eventName := cell r 0
      let headers := data.getD (i + 1) []
      let row2 := data.getD (i + 2) []
      let imageIndex := idxOfCell "Image" headers
      let enabledIndex := idxOfCell "Enabled" headers
      some
        { id := eventName
          name := eventName
          image :=
            match imageIndex with
            | some j => if i + 2 < data.length ∧ cell row2 j ≠ "" then some (cell row2 j) else none
            | none => none
          enabled :=
            ! (match enabledIndex with
               | some j => decide (i + 2 < data.length ∧ cell row2 j = "false")
               | none => false)
          registrations :=
            match tableRows data eventName with
            | some t => t.length - 1
            | none => 0 }
    else none)

/-- `GET /api/events?company={name}` (`company = none` models an absent
query parameter). -/
def eventsGET (sess : Option Session) (st : Store) (company : Option String) : EventsGetRes :=
  match sess with
  | none => ⟨⟨401, some "Unauthorized"⟩, [], st⟩
  | some s =>
    if ¬ truthy company then ⟨⟨400, some "Company name is required"⟩, [], st⟩
    else
      match decodeURIComponent (company.getD "") with
      | none => ⟨⟨500, some "Failed to get events"⟩, [], st⟩
      | some cn =>
        if s.type ≠ "admin" ∧ s.name ≠ cn then
          ⟨⟨403, some "Unauthorized to access this company\x27s events"⟩, [], st⟩
        else
          match lookupSheet st cn with
          | none => ⟨⟨500, some "Failed to get events"⟩, [], st⟩
          | some data => ⟨⟨200, none⟩, sheetEvents data, st⟩

/-- Body of `POST /api/events`. -/
structure EventPostReq where
  companyName : Option String
  eventName : Option String
  image : Option String
deriving Repr, DecidableEq

/-- The fixed header row of every event table. -/
def eventHeaders : Row :=
  ["Name", "Phone", "Email", "Gender", "College", "Status", "National ID",
   "Registration Date", "Image", "Enabled"]

/-- The first data row written at event creation: empty cells except
the image URL (if any) in the `Image` column and `'true'` in the
`Enabled` column (`headers.indexOf` resolves the positions). -/
def eventFirstRow (imageUrl : Option String) : Row :=
  setCell
    (setCell (List.replicate eventHeaders.length "")
      ((idxOfCell "Image" eventHeaders).getD eventHeaders.length) (imageUrl.getD ""))
    ((idxOfCell "Enabled" eventHeaders).getD eventHeaders.length) "true"

/-- `POST /api/events`: creates the event table (title, fixed headers)
in the company's sheet and writes the status row after the header. -/
def eventsPOST (upload : String → String → Option String) (now : String)
    (sess : Option Session) (st : Store) (req : EventPostReq) : ApiRes :=
  match sess with
  | none => ⟨⟨401, some "Unauthorized"⟩, st⟩
  | some s =>
    if ¬ truthy req.companyName ∨ ¬ truthy req.eventName then
      ⟨⟨400, some "Company name and event name are required"⟩, st⟩
    else
      let cn := req.companyName.getD ""
      let en := req.eventName.getD ""
      if s.type ≠ "admin" ∧ s.name ≠ cn then
        ⟨⟨403, some "Unauthorized to create events for this company"⟩, st⟩
      else
        let imageUrl : Option String :=
          if truthy req.image then
            upload ("event_" ++ cn ++ "_" ++ en ++ "_" ++ now ++ ".jpg") (req.image.getD "")
          else none
        let st1 := createTable st cn en eventHeaders
        ⟨⟨200, none⟩, updateTableData st1 cn en 1 (eventFirstRow imageUrl)⟩

/-- `DELETE /api/events?company={c}&event={e}`. -/
def eventsDELETE (sess : Option Session) (st : Store)
    (company event : Option String) : ApiRes :=
  match sess with
  | none => ⟨⟨401, some "Unauthorized"⟩, st⟩
  | some s =>
    if ¬ truthy company ∨ ¬ truthy event then
      ⟨⟨400, some "Company name and event name are required"⟩, st⟩
    else
      let cn := company.getD ""
      if s.type ≠ "admin" ∧ s.name ≠ cn then
        ⟨⟨403, some "Unauthorized to delete events for this company"⟩, st⟩
      else ⟨⟨200, none⟩, deleteTable st cn (event.getD "")⟩

/-- Body of `PATCH /api/events`. -/
structure EventPatchReq where
  companyName : Option String
  eventName : Option String
  enabled : Option Bool
  image : Option String
deriving Repr, DecidableEq

/-- `PATCH /api/events`: rewrites the status row (and, when the table
lacks an `Enabled` header, extends the header row first). -/
def eventsPATCH (upload : String → String → Option String) (now : String)
    (sess : Option Session) (st : Store) (req : EventPatchReq) : ApiRes :=
  match sess with
  | none => ⟨⟨401, some "Unauthorized"⟩, st⟩
  | some s =>
    if ¬ truthy req.companyName ∨ ¬ truthy req.eventName then
      ⟨⟨400, some "Company name and event name are required"⟩, st⟩
    else
      let cn := req.companyName.getD ""
      let en := req.eventName.getD ""
      if s.type ≠ "admin" ∧ s.name ≠ cn then
        ⟨⟨403, some "Unauthorized to update events for this company"⟩, st⟩
      else
        match getTableData st cn en with
        | none => ⟨⟨404, some "Event not found"⟩, st⟩
        | some tableData =>
          if tableData.isEmpty then ⟨⟨404, some "Event not found"⟩, st⟩
          else
            let headers := tableData.getD 0 []
            let firstRow := if tableData.length > 1 then tableData.getD 1 []
              else List.replicate headers.length ""
            let fr1 := if truthy req.image then
                match upload ("event_" ++ cn ++ "_" ++ en ++ "_" ++ now ++ ".jpg")
                    (req.image.getD "") with
                | some url =>
                  match idxOfCell "Image" headers with
                  | some j => setCell firstRow j url
                  | none => firstRow
                | none => firstRow
              else firstRow
            match req.enabled with
            | none => ⟨⟨200, none⟩, updateTableData st cn en 1 fr1⟩
            | some b =>
              match idxOfCell "Enabled" headers with
              | some j =>
                ⟨⟨200, none⟩,
                 updateTableData st cn en 1 (setCell fr1 j (if b then "true" else "false"))⟩
              | none =>
                let stH := updateTableData st cn en 0 (headers ++ ["Enabled"])
                ⟨⟨200, none⟩,
                 updateTableData stH cn en 1 (fr1 ++ [if b then "true" else "false"])⟩

/-! ## Basic facts about cells and rows -/

theorem length_padTo (r : Row) (n : Nat) : (padTo r n).length = max n r.length := by
  simp [padTo]; omega

theorem length_setCell (r : Row) (i : Nat) (v : String) :
    (setCell r i v).length = max (i + 1) r.length := by
  simp [setCell, length_padTo]

theorem cell_padTo (r : Row) (n j : Nat) : cell (padTo r n) j = cell r j := by
  unfold cell padTo
  rcases Nat.lt_or_ge j r.length with h | h
  · rw [List.getD_append _ _ _ _ h]
  · rw [List.getD_append_right _ _ _ _ h, List.getD_eq_default _ _ h]
    rcases Nat.lt_or_ge (j - r.length) (n - r.length) with h2 | h2
    · simp [List.getD, List.getElem?_replicate, h2]
    · rw [List.getD_eq_default]
      simpa using h2

theorem cell_setCell_eq (r : Row) (i : Nat) (v : String) : cell (setCell r i v) i = v := by
  have hlen : i < (padTo r (i + 1)).length := by rw [length_padTo]; omega
  simp [setCell, cell, List.getD, List.getElem?_set_eq hlen]

theorem cell_setCell_ne (r : Row) (i j : Nat) (v : String) (h : j ≠ i) :
    cell (setCell r i v) j = cell r j := by
  have : cell (setCell r i v) j = cell (padTo r (i + 1)) j := by
    simp [setCell, cell, List.getD, List.getElem?_set_ne (Ne.symm h)]
  rw [this, cell_padTo]

theorem cell_replicate (n j : Nat) : cell (List.replicate n "") j = "" := by
  simp [cell, List.getD]

/-! ## Basic facts about the store operations -/

theorem lookupSheet_setSheet_self (st : Store) (n : String) (x : Sheet)
    (h : (lookupSheet st n).isSome) : lookupSheet (setSheet st n x) n = some x := by
  induction st with
  | nil => simp [lookupSheet] at h
  | cons p rest ih =>
    by_cases hp : p.1 = n
    · simp [lookupSheet, setSheet, List.find?, hp]
    · simp only [lookupSheet, setSheet, List.map_cons, if_neg hp, List.find?] at *
      rw [decide_eq_false hp] at h ⊢
      exact ih h

theorem lookupSheet_cons (q : String × Sheet) (rest : Store) (m : String) :
    lookupSheet (q :: rest) m = if q.1 = m then some q.2 else lookupSheet rest m := by
  by_cases h : q.1 = m
  · rw [if_pos h]
    unfold lookupSheet
    rw [List.find?_cons_of_pos _ (by simp [h])]
    rfl
  · rw [if_neg h]
    unfold lookupSheet
    rw [List.find?_cons_of_neg _ (by simp [h])]

theorem lookupSheet_setSheet_ne (st : Store) (n m : String) (x : Sheet) (h : m ≠ n) :
    lookupSheet (setSheet st n x) m = lookupSheet st m := by
  induction st with
  | nil => rfl
  | cons p rest ih =>
    rw [show setSheet (p :: rest) n x =
        ((if p.1 = n then (n, x) else p) :: setSheet rest n x) from rfl,
      lookupSheet_cons, lookupSheet_cons]
    by_cases hp : p.1 = n
    · rw [if_pos hp]
      simp only []
      rw [if_neg (fun hh => h hh.symm), if_neg (fun hh : p.1 = m => h (hp ▸ hh).symm)]
      exact ih
    · rw [if_neg hp]
      by_cases hm : p.1 = m
      · rw [if_pos hm, if_pos hm]
      · rw [if_neg hm, if_neg hm]
        exact ih

theorem lookupSheet_append (st l : Store) (n : String) :
    lookupSheet (st ++ l) n = (lookupSheet st n).or (lookupSheet l n) := by
  unfold lookupSheet
  rw [List.find?_append]
  cases List.find? (fun p => decide (p.1 = n)) st <;> simp

theorem lookupSheet_append_of_some (st l : Store) (n : String) (sh : Sheet)
    (h : lookupSheet st n = some sh) : lookupSheet (st ++ l) n = some sh := by
  rw [lookupSheet_append, h]
  rfl

theorem lookupSheet_append_of_none (st l : Store) (n : String)
    (h : lookupSheet st n = none) : lookupSheet (st ++ l) n = lookupSheet l n := by
  rw [lookupSheet_append, h]
  rfl

theorem lookupSheet_createSheet_of_some (st : Store) (n c : String) (sh : Sheet)
    (h : lookupSheet st c = some sh) : lookupSheet (createSheet st n) c = some sh := by
  unfold createSheet
  split
  · exact h
  · exact lookupSheet_append_of_some _ _ _ _ h

theorem lookupSheet_appendToSheet_self (st : Store) (n : String) (sh : Sheet) (rows : List Row)
    (h : lookupSheet st n = some sh) :
    lookupSheet (appendToSheet st n rows) n = some (sh ++ rows) := by
  unfold appendToSheet
  rw [h]
  exact lookupSheet_setSheet_self _ _ _ (by simp [h])

theorem lookupSheet_appendToSheet_ne (st : Store) (n m : String) (rows : List Row) (h : m ≠ n) :
    lookupSheet (appendToSheet st n rows) m = lookupSheet st m := by
  unfold appendToSheet
  split
  · exact lookupSheet_setSheet_ne _ _ _ _ h
  · rfl

theorem lookupSheet_deleteRow_self (st : Store) (n : String) (sh : Sheet) (i : Nat)
    (h : lookupSheet st n = some sh) :
    lookupSheet (deleteRow st n i) n = some (sh.take (i - 1) ++ sh.drop i) := by
  unfold deleteRow
  rw [h]
  exact lookupSheet_setSheet_self _ _ _ (by simp [h])

theorem lookupSheet_fresh_sheet (st : Store) (n : String) (rows : List Row)
    (h : lookupSheet st n = none) :
    lookupSheet (appendToSheet (createSheet st n) n rows) n = some rows := by
  have hc : createSheet st n = st ++ [(n, [])] := by
    unfold createSheet
    simp [h]
  have hl : lookupSheet (createSheet st n) n = some [] := by
    rw [hc, lookupSheet_append_of_none _ _ _ h, lookupSheet_cons]
    simp
  unfold appendToSheet
  rw [hl]
  simpa using lookupSheet_setSheet_self (createSheet st n) n ([] ++ rows) (by simp [hl])

/-! ## Basic facts about the table operations -/

theorem takeWhile_insertAfterTable (rest : Sheet) (x : Row) (hx : isTitle x = false) :
    (insertAfterTable rest x).takeWhile (fun q => ¬ isTitle q) =
      rest.takeWhile (fun q => ¬ isTitle q) ++ [x] := by
  induction rest with
  | nil => simp [insertAfterTable, List.takeWhile, hx]
  | cons q rest ih =>
    by_cases hq : isTitle q
    · simp [insertAfterTable, List.takeWhile, hq, hx]
    · simp only [insertAfterTable, if_neg hq, List.takeWhile, hq]
      simp only [decide_not, Bool.not_eq_true']
      rw [Bool.not_eq_true] at hq  -- isTitle q = false
      simp [hq]
      simpa [decide_not] using ih

theorem tableRows_addRowToTable (sh : Sheet) (e : String) (x : Row) (t : List Row)
    (hx : isTitle x = false) (h : tableRows sh e = some t) :
    tableRows (addRowToTable sh e x) e = some (t ++ [x]) := by
  induction sh with
  | nil => simp [tableRows] at h
  | cons r rest ih =>
    by_cases hr : r = [e]
    · rw [show addRowToTable (r :: rest) e x =
          (r :: insertAfterTable rest x) from by unfold addRowToTable; rw [if_pos hr]]
      unfold tableRows at h ⊢
      rw [if_pos hr] at h ⊢
      rw [takeWhile_insertAfterTable rest x hx]
      simp only [Option.some.injEq] at h
      rw [h]
    · rw [show addRowToTable (r :: rest) e x =
          (r :: addRowToTable rest e x) from by
            conv_lhs => unfold addRowToTable
            rw [if_neg hr]]
      unfold tableRows at h ⊢
      rw [if_neg hr] at h ⊢
      exact ih h

theorem getTableData_addToTable (st : Store) (c e : String) (x : Row) (t : List Row)
    (hx : isTitle x = false) (h : getTableData st c e = some t) :
    getTableData (addToTable st c e x) c e = some (t ++ [x]) := by
  unfold getTableData at h
  rcases hsh : lookupSheet st c with _ | sh
  · rw [hsh] at h; simp at h
  · rw [hsh] at h
    rw [Option.some_bind] at h
    rw [show addToTable st c e x = setSheet st c (addRowToTable sh e x) from by
      unfold addToTable; rw [hsh]]
    unfold getTableData
    rw [lookupSheet_setSheet_self _ _ _ (by simp [hsh])]
    rw [Option.some_bind]
    exact tableRows_addRowToTable sh e x t hx h

theorem tableRows_append_fresh (sh : Sheet) (e : String) (tail : Sheet)
    (hf : ∀ r ∈ sh, r ≠ [e]) :
    tableRows (sh ++ [e] :: tail) e = some (tail.takeWhile (fun q => ¬ isTitle q)) := by
  induction sh with
  | nil => simp [tableRows]
  | cons r rest ih =>
    have hr : r ≠ [e] := hf r (List.mem_cons_self r rest)
    rw [List.cons_append]
    unfold tableRows
    rw [if_neg hr]
    exact ih (fun q hq => hf q (List.mem_cons_of_mem r hq))

theorem updInTable_append_fresh (sh : Sheet) (e : String) (tail : Sheet) (idx : Nat) (x : Row)
    (hf : ∀ r ∈ sh, r ≠ [e]) :
    updInTable (sh ++ [e] :: tail) e idx x = sh ++ [e] :: setWithin tail idx x := by
  induction sh with
  | nil =>
    simp only [List.nil_append]
    unfold updInTable
    rw [if_pos rfl]
  | cons r rest ih =>
    have hr : r ≠ [e] := hf r (List.mem_cons_self r rest)
    rw [List.cons_append]
    conv_lhs => unfold updInTable
    rw [if_neg hr]
    rw [ih (fun q hq => hf q (List.mem_cons_of_mem r hq))]
    rfl

/-! ## Observable projections of the store -/

/-- The data rows of the companies table (everything below the header
row). -/
def companiesRows (st : Store) : List Row := ((lookupSheet st "companies").getD []).drop 1

/-- The username column of the companies table. -/
def usernamesOf (st : Store) : List String := (companiesRows st).map (fun r => cell r 2)

/-- The ID column of the companies table. -/
def idsOf (st : Store) : List String := (companiesRows st).map (fun r => cell r 0)

/-! ## Concrete fixtures used to exercise the handlers -/

/-- A one-company companies sheet: header plus the `Acme` row (enabled). -/
def sampleCompaniesSheet : Sheet :=
  [companiesHeader, ["company_1", "Acme", "acme", "h1", "", "true"]]

/-- The status row of a freshly created event: empty cells, no image,
enabled. -/
def sampleStatusRow : Row := ["", "", "", "", "", "", "", "", "", "true"]

/-- A store with one enabled company `Acme` holding one enabled event
`Party` with no registrants. -/
def sampleStore : Store :=
  [("companies", sampleCompaniesSheet), ("Acme", [["Party"], eventHeaders, sampleStatusRow])]

/-- Like `sampleStore` but with the company disabled. -/
def sampleStoreDisabledCompany : Store :=
  [("companies", [companiesHeader, ["company_1", "Acme", "acme", "h1", "", "false"]]),
   ("Acme", [["Party"], eventHeaders, sampleStatusRow])]

/-- Like `sampleStore` but with the event disabled. -/
def sampleStoreDisabledEvent : Store :=
  [("companies", sampleCompaniesSheet),
   ("Acme", [["Party"], eventHeaders, ["", "", "", "", "", "", "", "", "", "false"]])]

/-- A well-formed registration request for `Party` at `Acme`. -/
def sampleRegisterReq : RegisterReq :=
  ⟨some "Acme", some "Party", some "Bob", some "0123456789", some "bob@x.co",
   some "M", some "Cairo", some "Student", some "123"⟩

/-! ## Counterexample scenarios -/

/-- Two company rows sharing the ID `1` but with distinct usernames
(`Date.now()`-generated IDs can collide within one millisecond, and
nothing checks ID uniqueness on creation). -/
def dupIdStore : Store :=
  [("companies", [companiesHeader, ["1", "A", "a", "h", ""], ["1", "B", "b", "h", ""]])]

/-- A rename of company id `1` to the username `b` already held by the
other row with id `1`. -/
def dupIdPatchReq : CompanyPatchReq := ⟨some "1", none, some "b", none, none, none⟩

/-- The result of that PATCH (hash and upload are irrelevant here). -/
def dupIdPatchRes : ApiRes :=
  companiesPATCH (fun s => s) (fun _ _ => none) "t" (some ⟨"admin", "Admin"⟩)
    dupIdStore dupIdPatchReq

/-- A store whose company `Acme` has an empty sheet, and the store
after `POST /api/events` creates event `Gala` in it.  No registration
request ever ran against this store. -/
def freshEventBase : Store := [("companies", sampleCompaniesSheet), ("Acme", [])]

/-- The store right after creating the event `Gala`. -/
def freshEventStore : Store :=
  (eventsPOST (fun _ _ => none) "t" (some ⟨"admin", "Admin"⟩) freshEventBase
    ⟨some "Acme", some "Gala", none⟩).store

/-- A registration request whose `companyName` field is absent from the
JSON body (JavaScript `undefined`); the other eight fields are valid. -/
def missingNameReq : RegisterReq :=
  ⟨none, some "Party", some "Bob", some "0123456789", some "bob@x.co",
   some "M", some "Cairo", some "Student", some "123"⟩

/-- C4 counterexample: starting from a companies table whose usernames
(`a`, `b`) are pairwise distinct but whose IDs collide, the PATCH
renaming the first `1`-row to username `b` is not rejected (the
`row[0] !== id` filter in the duplicate check skips the clashing row
because its ID equals the target's), and it leaves the table with two
rows named `b`, refuting "every PATCH either rejects with 400 Username
already exists or preserves pairwise-distinct usernames". -/
theorem patch_breaks_username_uniqueness :
    (usernamesOf dupIdStore).Nodup ∧
    dupIdPatchRes.resp = ⟨200, none⟩ ∧
    dupIdPatchRes.resp ≠ ⟨400, some "Username already exists"⟩ ∧
    ¬ (usernamesOf dupIdPatchRes.store).Nodup := by decide

/-- C6 counterexample: after creating event `Gala` (and before any
registration), the event's table holds only the header row and the
image/enabled status row — zero registrant rows, as the empty
`.drop 2` shows — yet `GET /api/events` reports `registrations = 1`,
because it computes `tableLength - 1`, which counts the status row.
This refutes "an event with no registrants reports 0". -/
theorem fresh_event_reports_one :
    ((getTableData freshEventStore "Acme" "Gala").getD []).drop 2 = [] ∧
    (eventsGET (some ⟨"admin", "Admin"⟩) freshEventStore (some "Acme")).events.map
      EventOut.registrations = [1] := by decide

/-- C10 counterexample: a registration request with `companyName`
absent is not rejected by the required-fields validation with 400:
`decodeURIComponent(undefined)` coerces the field to the non-empty
string `"undefined"`, so the request falls through to the company
lookup and (here) draws a 404, refuting "rejects with status 400
whenever any of the nine required fields is missing or empty". -/
theorem missing_company_name_not_rejected :
    decodeCompanyName missingNameReq = some "undefined" ∧
    (registerPOST "T" sampleStore missingNameReq).resp = ⟨404, some "Company not found"⟩ := by
  decide

/-! ## The registration route: validated requests -/

/-- A registration request that passes the route's validation block:
the company name decodes, all nine fields are present and non-empty,
and the email and phone match their regexes. -/
structure RegValid (req : RegisterReq) (raw cn : String) : Prop where
  rawEq : req.companyName = some raw
  decEq : decodeURIComponent raw = some cn
  cnNe : cn ≠ ""
  evT : truthy req.eventName = true
  nameT : truthy req.name = true
  phoneT : truthy req.phone = true
  emailT : truthy req.email = true
  genderT : truthy req.gender = true
  collegeT : truthy req.college = true
  statT : truthy req.status = true
  natT : truthy req.nationalId = true
  emailV : emailOk (req.email.getD "") = true
  phoneV : phoneOk (req.phone.getD "") = true

theorem missingFields_false_of_valid (req : RegisterReq) (raw cn : String)
    (hv : RegValid req raw cn) : missingFields req cn = false := by
  simp [missingFields, hv.cnNe, hv.evT, hv.nameT, hv.phoneT, hv.emailT, hv.genderT,
    hv.collegeT, hv.statT, hv.natT]

theorem decodeCompanyName_of_valid (req : RegisterReq) (raw cn : String)
    (hv : RegValid req raw cn) : decodeCompanyName req = some cn := by
  unfold decodeCompanyName
  rw [hv.rawEq]
  exact hv.decEq

/-- C2: a validated registration request against a company whose row
carries `'false'` in the enabled column is answered 403 with
`Registration is unavailable for this company`, and the store — hence
every table — is untouched.  (Requests that fail the validation block
never reach this check and are rejected 400 earlier; that behaviour is
the subject of the validation claim.) -/
theorem register_disabled_company (now : String) (st : Store) (req : RegisterReq)
    (raw cn : String) (cd : Sheet) (comp : Row)
    (hv : RegValid req raw cn)
    (hcd : lookupSheet st "companies" = some cd)
    (hfind : (cd.drop 1).find? (fun r => cell r 1 = cn) = some comp)
    (hdis : cell comp 5 = "false") :
    registerPOST now st req =
      ⟨⟨403, some "Registration is unavailable for this company"⟩, st⟩ := by
  unfold registerPOST
  rw [decodeCompanyName_of_valid req raw cn hv]
  simp only [missingFields_false_of_valid req raw cn hv, hv.emailV, hv.phoneV, hcd, hfind]
  simp [hdis]

/-- Witness: the disabled-company fixture draws the 403 with the store
unchanged. -/
theorem register_disabled_company_witness :
    registerPOST "T" sampleStoreDisabledCompany sampleRegisterReq =
      ⟨⟨403, some "Registration is unavailable for this company"⟩,
       sampleStoreDisabledCompany⟩ :=
  register_disabled_company "T" sampleStoreDisabledCompany sampleRegisterReq
    "Acme" "Acme"
    [companiesHeader, ["company_1", "Acme", "acme", "h1", "", "false"]]
    ["company_1", "Acme", "acme", "h1", "", "false"]
    ⟨rfl, by decide, by decide, rfl, rfl, rfl, rfl, rfl, rfl, rfl, rfl, by decide, by decide⟩
    (by decide) (by decide) rfl

/-- C3: a validated registration request against an existing event
whose status row carries `'false'` in its last cell is answered 403
with `Registration has ended for this event`, and the store is
untouched. -/
theorem register_disabled_event (now : String) (st : Store) (req : RegisterReq)
    (raw cn : String) (cd : Sheet) (comp : Row) (sh : Sheet) (t : List Row)
    (hv : RegValid req raw cn)
    (hcd : lookupSheet st "companies" = some cd)
    (hfind : (cd.drop 1).find? (fun r => cell r 1 = cn) = some comp)
    (hen : cell comp 5 ≠ "false")
    (hsh : lookupSheet st cn = some sh)
    (hshne : sh.isEmpty = false)
    (ht : getTableData st cn (req.eventName.getD "") = some t)
    (htne : t.isEmpty = false)
    (hdis : eventDisabled t = true) :
    registerPOST now st req =
      ⟨⟨403, some "Registration has ended for this event"⟩, st⟩ := by
  unfold registerPOST
  rw [decodeCompanyName_of_valid req raw cn hv]
  simp only [missingFields_false_of_valid req raw cn hv, hv.emailV, hv.phoneV, hcd, hfind,
    hsh, hshne, ht, htne]
  simp [hen, hdis]

/-- Witness: the disabled-event fixture draws the 403 with the store
unchanged. -/
theorem register_disabled_event_witness :
    registerPOST "T" sampleStoreDisabledEvent sampleRegisterReq =
      ⟨⟨403, some "Registration has ended for this event"⟩, sampleStoreDisabledEvent⟩ :=
  register_disabled_event "T" sampleStoreDisabledEvent sampleRegisterReq
    "Acme" "Acme" sampleCompaniesSheet ["company_1", "Acme", "acme", "h1", "", "true"]
    [["Party"], eventHeaders, ["", "", "", "", "", "", "", "", "", "false"]]
    [eventHeaders, ["", "", "", "", "", "", "", "", "", "false"]]
    ⟨rfl, by decide, by decide, rfl, rfl, rfl, rfl, rfl, rfl, rfl, rfl, by decide, by decide⟩
    (by decide) (by decide) (by decide) (by decide) (by decide) (by decide) (by decide)
    (by decide)

/-- C1: a validated registration request that reaches the duplicate
check (company exists and is enabled, the event's table exists, is
non-empty and is not disabled) is answered 400 `You are already
registered for this event` with the store untouched when some row
after the header matches the request's email or phone, and otherwise
succeeds with exactly the registration row (fields plus timestamp)
appended at the bottom of that event's table.  The status row (empty
email and phone cells) can never match because validation forces both
to be non-empty. -/
theorem register_duplicate_or_append (now : String) (st : Store) (req : RegisterReq)
    (raw cn : String) (cd : Sheet) (comp : Row) (sh : Sheet) (t : List Row)
    (hv : RegValid req raw cn)
    (hcd : lookupSheet st "companies" = some cd)
    (hfind : (cd.drop 1).find? (fun r => cell r 1 = cn) = some comp)
    (hen : cell comp 5 ≠ "false")
    (hsh : lookupSheet st cn = some sh)
    (hshne : sh.isEmpty = false)
    (ht : getTableData st cn (req.eventName.getD "") = some t)
    (htne : t.isEmpty = false)
    (hed : eventDisabled t = false) :
    (((t.drop 1).any
        (fun r => cell r 2 = req.email.getD "" ∨ cell r 1 = req.phone.getD "")) = true →
      registerPOST now st req =
        ⟨⟨400, some "You are already registered for this event"⟩, st⟩) ∧
    (((t.drop 1).any
        (fun r => cell r 2 = req.email.getD "" ∨ cell r 1 = req.phone.getD "")) = false →
      (registerPOST now st req).resp = ⟨200, none⟩ ∧
      getTableData (registerPOST now st req).store cn (req.eventName.getD "") =
        some (t ++ [registrationRow req now])) := by
  have hred : registerPOST now st req =
      if ((t.drop 1).any
          (fun r => cell r 2 = req.email.getD "" ∨ cell r 1 = req.phone.getD "")) = true then
        ⟨⟨400, some "You are already registered for this event"⟩, st⟩
      else
        ⟨⟨200, none⟩, addToTable st cn (req.eventName.getD "") (registrationRow req now)⟩ := by
    unfold registerPOST
    rw [decodeCompanyName_of_valid req raw cn hv]
    simp only [missingFields_false_of_valid req raw cn hv, hv.emailV, hv.phoneV, hcd, hfind,
      hsh, hshne, ht, htne, hed]
    simp [hen]
  constructor
  · intro hdup
    rw [hred, if_pos hdup]
  · intro hdup
    rw [hred, if_neg (by rw [hdup]; decide)]
    refine ⟨rfl, ?_⟩
    exact getTableData_addToTable st cn (req.eventName.getD "") (registrationRow req now) t
      rfl ht

/-- Witness: on the sample store, registering twice first succeeds and
appends the row, then hits the duplicate rejection. -/
theorem register_duplicate_or_append_witness :
    ((((([eventHeaders, sampleStatusRow] : List Row).drop 1).any
        (fun r => cell r 2 = sampleRegisterReq.email.getD "" ∨
                  cell r 1 = sampleRegisterReq.phone.getD "")) = false) ∧
     (registerPOST "T" sampleStore sampleRegisterReq).resp = ⟨200, none⟩ ∧
     getTableData (registerPOST "T" sampleStore sampleRegisterReq).store "Acme" "Party" =
       some ([eventHeaders, sampleStatusRow] ++ [registrationRow sampleRegisterReq "T"])) :=
  have h := register_duplicate_or_append "T" sampleStore sampleRegisterReq "Acme" "Acme"
    sampleCompaniesSheet ["company_1", "Acme", "acme", "h1", "", "true"]
    [["Party"], eventHeaders, sampleStatusRow] [eventHeaders, sampleStatusRow]
    ⟨rfl, by decide, by decide, rfl, rfl, rfl, rfl, rfl, rfl, rfl, rfl, by decide, by decide⟩
    (by decide) (by decide) (by decide) (by decide) (by decide) (by decide) (by decide)
    (by decide)
  ⟨by decide, h.2 (by decide)⟩

/-- C10 (amended): the registration route rejects 400 and writes
nothing whenever the decoded company name is empty or any of the other
eight fields is absent or empty (`missingFields`), or the email fails
its regex, or the phone fails its regex; and the response on these
paths is computed without consulting the store (it is identical for
every store, each left unchanged).  An absent `companyName` is outside
this guarantee: it is coerced to the string `"undefined"` and reaches
the company lookup. -/
theorem register_validation (now : String) (st : Store) (req : RegisterReq) (cn : String)
    (hdc : decodeCompanyName req = some cn)
    (hbad : missingFields req cn = true ∨
            (missingFields req cn = false ∧ emailOk (req.email.getD "") = false) ∨
            (missingFields req cn = false ∧ emailOk (req.email.getD "") = true ∧
             phoneOk (req.phone.getD "") = false)) :
    (registerPOST now st req).resp.status = 400 ∧
    (registerPOST now st req).store = st ∧
    ∀ st2 : Store, registerPOST now st2 req = ⟨(registerPOST now st req).resp, st2⟩ := by
  rcases hbad with h | ⟨h1, h2⟩ | ⟨h1, h2, h3⟩
  · have hred : ∀ s : Store, registerPOST now s req =
        ⟨⟨400, some "All fields are required"⟩, s⟩ := by
      intro s
      unfold registerPOST
      rw [hdc]
      simp [h]
    exact ⟨by rw [hred], by rw [hred], fun st2 => by rw [hred st2, hred st]⟩
  · have hred : ∀ s : Store, registerPOST now s req =
        ⟨⟨400, some "Invalid email format"⟩, s⟩ := by
      intro s
      unfold registerPOST
      rw [hdc]
      simp [h1, h2]
    exact ⟨by rw [hred], by rw [hred], fun st2 => by rw [hred st2, hred st]⟩
  · have hred : ∀ s : Store, registerPOST now s req =
        ⟨⟨400, some "Invalid phone number format"⟩, s⟩ := by
      intro s
      unfold registerPOST
      rw [hdc]
      simp [h1, h2, h3]
    exact ⟨by rw [hred], by rw [hred], fun st2 => by rw [hred st2, hred st]⟩

/-- A registration request with an empty `name` field (everything else
valid). -/
def emptyNameReq : RegisterReq :=
  ⟨some "Acme", some "Party", some "", some "0123456789", some "bob@x.co",
   some "M", some "Cairo", some "Student", some "123"⟩

/-- Witness: the empty-name request is rejected 400 on the sample
store, leaves it unchanged, and gets the very same response on the
empty store, which is also left unchanged. -/
theorem register_validation_witness :
    (registerPOST "T" sampleStore emptyNameReq).resp.status = 400 ∧
    (registerPOST "T" sampleStore emptyNameReq).store = sampleStore ∧
    registerPOST "T" [] emptyNameReq =
      ⟨(registerPOST "T" sampleStore emptyNameReq).resp, []⟩ :=
  have h := register_validation "T" sampleStore emptyNameReq "Acme" (by decide)
    (Or.inl (by decide))
  ⟨h.1, h.2.1, h.2.2 []⟩

/-- C5: every `/api/companies` handler answers 401 `Unauthorized` with
the store untouched whenever there is no session or the session's user
type is not `admin`; every `/api/events` handler answers 401 with the
store untouched whenever there is no session; and
`POST /api/events/register` takes no session at all — witnessed by a
sessionless registration that succeeds on the sample store. -/
theorem handlers_auth_gated (st : Store) (sess : Option Session)
    (hash : String → String) (upload : String → String → Option String) (now : String)
    (reqP : CompanyPostReq) (reqQ : CompanyPatchReq) (idp company event : Option String)
    (reqE : EventPostReq) (reqF : EventPatchReq)
    (hna : isAdmin sess = false) :
    companiesGET sess st = ⟨⟨401, some "Unauthorized"⟩, [], st⟩ ∧
    companiesPOST hash upload now sess st reqP = ⟨⟨401, some "Unauthorized"⟩, st⟩ ∧
    companiesDELETE sess st idp = ⟨⟨401, some "Unauthorized"⟩, st⟩ ∧
    companiesPATCH hash upload now sess st reqQ = ⟨⟨401, some "Unauthorized"⟩, st⟩ ∧
    (sess = none →
      eventsGET sess st company = ⟨⟨401, some "Unauthorized"⟩, [], st⟩ ∧
      eventsPOST upload now sess st reqE = ⟨⟨401, some "Unauthorized"⟩, st⟩ ∧
      eventsDELETE sess st company event = ⟨⟨401, some "Unauthorized"⟩, st⟩ ∧
      eventsPATCH upload now sess st reqF = ⟨⟨401, some "Unauthorized"⟩, st⟩) ∧
    ((registerPOST "T" sampleStore sampleRegisterReq).resp = ⟨200, none⟩) := by
  refine ⟨?_, ?_, ?_, ?_, ?_, by decide⟩
  · unfold companiesGET
    rw [if_pos (by simp [hna])]
  · unfold companiesPOST
    rw [if_pos (by simp [hna])]
  · unfold companiesDELETE
    rw [if_pos (by simp [hna])]
  · unfold companiesPATCH
    rw [if_pos (by simp [hna])]
  · rintro rfl
    exact ⟨rfl, rfl, rfl, rfl⟩

/-- Witness: a company-typed session is rejected by every
`/api/companies` handler, and no session by every `/api/events`
handler, on the sample store, which is unchanged. -/
theorem handlers_auth_gated_witness :
    companiesGET (some ⟨"company", "Acme"⟩) sampleStore =
      ⟨⟨401, some "Unauthorized"⟩, [], sampleStore⟩ ∧
    companiesPATCH (fun s => s) (fun _ _ => none) "t" (some ⟨"company", "Acme"⟩) sampleStore
      ⟨some "company_1", none, none, none, none, some false⟩ =
      ⟨⟨401, some "Unauthorized"⟩, sampleStore⟩ ∧
    eventsGET none sampleStore (some "Acme") = ⟨⟨401, some "Unauthorized"⟩, [], sampleStore⟩ ∧
    (registerPOST "T" sampleStore sampleRegisterReq).resp = ⟨200, none⟩ :=
  have h := handlers_auth_gated sampleStore (some ⟨"company", "Acme"⟩)
    (fun s => s) (fun _ _ => none) "t"
    ⟨none, none, none, none⟩ ⟨some "company_1", none, none, none, none, some false⟩
    none (some "Acme") none ⟨none, none, none⟩ ⟨none, none, none, none⟩ (by decide)
  have h2 := handlers_auth_gated sampleStore none
    (fun s => s) (fun _ _ => none) "t"
    ⟨none, none, none, none⟩ ⟨some "company_1", none, none, none, none, some false⟩
    none (some "Acme") none ⟨none, none, none⟩ ⟨none, none, none, none⟩ (by decide)
  ⟨h.1, h.2.2.2.1, (h2.2.2.2.2.1 rfl).1, h.2.2.2.2.2⟩

/-! ## C7: the password column -/

/-- Two rows that agree on every cell the companies listing reads
(indices 0,1,2,4,5); the password cell (index 3) is exempt. -/
def pwEquivRow (r1 r2 : Row) : Bool :=
  (List.range 6).all (fun j => j == 3 || (cell r1 j == cell r2 j))

/-- Two companies sheets that differ at most in password cells. -/
def pwEquiv : Sheet → Sheet → Bool
  | [], [] => true
  | r1 :: t1, r2 :: t2 => pwEquivRow r1 r2 && pwEquiv t1 t2
  | _, _ => false

theorem rowToCompanyOut_eq_of_pwEquivRow (r1 r2 : Row) (h : pwEquivRow r1 r2 = true) :
    rowToCompanyOut r1 = rowToCompanyOut r2 := by
  rw [pwEquivRow, List.all_eq_true] at h
  have h0 := h 0 (by decide)
  have h1 := h 1 (by decide)
  have h2 := h 2 (by decide)
  have h4 := h 4 (by decide)
  have h5 := h 5 (by decide)
  simp only [Nat.reduceBEq, Bool.false_or, beq_iff_eq] at h0 h1 h2 h4 h5
  unfold rowToCompanyOut optCell
  rw [h0, h1, h2, h4, h5]

theorem map_companyOut_of_pwEquiv :
    ∀ (d1 d2 : Sheet), pwEquiv d1 d2 = true →
      d1.map rowToCompanyOut = d2.map rowToCompanyOut
  | [], [], _ => rfl
  | r1 :: t1, r2 :: t2, h => by
    rw [pwEquiv, Bool.and_eq_true] at h
    rw [List.map_cons, List.map_cons, rowToCompanyOut_eq_of_pwEquivRow r1 r2 h.1,
      map_companyOut_of_pwEquiv t1 t2 h.2]
  | [], _ :: _, h => by simp [pwEquiv] at h
  | _ :: _, [], h => by simp [pwEquiv] at h

theorem pwEquiv_drop1 :
    ∀ (d1 d2 : Sheet), pwEquiv d1 d2 = true → pwEquiv (d1.drop 1) (d2.drop 1) = true
  | [], [], _ => rfl
  | r1 :: t1, r2 :: t2, h => by
    rw [pwEquiv, Bool.and_eq_true] at h
    simpa using h.2
  | [], _ :: _, h => by simp [pwEquiv] at h
  | _ :: _, [], h => by simp [pwEquiv] at h

theorem getD_concat_last (l : List Row) (x : Row) : (l ++ [x]).getD l.length [] = x := by
  simp [List.getD]

/-- C7: `POST /api/companies` stores `bcrypt.hash(password, 10)` —
abstracted as the function `hash`, so the password cell of the newly
appended row is `hash password`, never the plaintext as long as the
hash is fixed-point-free — and the body of `GET /api/companies` is
computed without reading the password column: any two stores whose
companies sheets agree outside password cells yield identical company
lists (whose element type `CompanyOut` carries no password field at
all). -/
theorem password_hashed_and_get_independent
    (hash : String → String) (upload : String → String → Option String) (now : String)
    (sess : Option Session) (st st1 st2 : Store) (req : CompanyPostReq)
    (data1 d1 d2 : Sheet)
    (hhash : ∀ s, hash s ≠ s)
    (hadm : isAdmin sess = true)
    (hname : truthy req.name = true) (huser : truthy req.username = true)
    (hpass : truthy req.password = true)
    (hcs : lookupSheet st "companies" = some data1)
    (hfreshu : (data1.drop 1).any (fun r => cell r 2 = req.username.getD "") = false)
    (hl1 : lookupSheet st1 "companies" = some d1)
    (hl2 : lookupSheet st2 "companies" = some d2)
    (heq : pwEquiv d1 d2 = true) :
    (∃ d, lookupSheet (companiesPOST hash upload now sess st req).store "companies" = some d ∧
      d.length = data1.length + 1 ∧
      cell (d.getD (d.length - 1) []) 3 = hash (req.password.getD "") ∧
      cell (d.getD (d.length - 1) []) 3 ≠ req.password.getD "") ∧
    (companiesGET sess st1).companies = (companiesGET sess st2).companies := by
  constructor
  · have hred : (companiesPOST hash upload now sess st req).store =
        createSheet
          (appendToSheet st "companies"
            [["company_" ++ now, req.name.getD "", req.username.getD "",
              hash (req.password.getD ""),
              (if truthy req.image = true then
                  upload ("company_" ++ ("company_" ++ now) ++ "_" ++ now ++ ".jpg")
                    (req.image.getD "")
                else none).getD ""]])
          (req.name.getD "") := by
      unfold companiesPOST
      rw [if_neg (by simp [hadm])]
      rw [if_neg (by simp [hname, huser, hpass])]
      simp only [hcs, Option.isSome_some, if_true, hfreshu]
      rfl
    refine ⟨data1 ++
      [["company_" ++ now, req.name.getD "", req.username.getD "",
        hash (req.password.getD ""),
        (if truthy req.image = true then
            upload ("company_" ++ ("company_" ++ now) ++ "_" ++ now ++ ".jpg")
              (req.image.getD "")
          else none).getD ""]], ?_, by simp, ?_, ?_⟩
    · rw [hred]
      exact lookupSheet_createSheet_of_some _ _ _ _
        (lookupSheet_appendToSheet_self st "companies" data1 _ hcs)
    · rw [show (data1 ++
          [["company_" ++ now, req.name.getD "", req.username.getD "",
            hash (req.password.getD ""),
            (if truthy req.image = true then
                upload ("company_" ++ ("company_" ++ now) ++ "_" ++ now ++ ".jpg")
                  (req.image.getD "")
              else none).getD ""]]).length - 1 = data1.length from by simp,
        getD_concat_last]
      rfl
    · rw [show (data1 ++
          [["company_" ++ now, req.name.getD "", req.username.getD "",
            hash (req.password.getD ""),
            (if truthy req.image = true then
                upload ("company_" ++ ("company_" ++ now) ++ "_" ++ now ++ ".jpg")
                  (req.image.getD "")
              else none).getD ""]]).length - 1 = data1.length from by simp,
        getD_concat_last]
      exact hhash _
  · unfold companiesGET
    rw [if_neg (by simp [hadm]), if_neg (by simp [hadm])]
    rw [hl1, hl2]
    show (d1.drop 1).map rowToCompanyOut = (d2.drop 1).map rowToCompanyOut
    exact map_companyOut_of_pwEquiv _ _ (pwEquiv_drop1 d1 d2 heq)

/-- A stand-in for `bcrypt.hash(·, 10)` in witnesses: prefix tagging,
which has no fixed point. -/
def tagHash (s : String) : String := "$" ++ s

/-- A stand-in upload function that always reports failure. -/
def noUpload : String → String → Option String := fun _ _ => none

theorem tagHash_ne (s : String) : tagHash s ≠ s := by
  intro h
  have hl := congrArg String.length h
  rw [tagHash, String.length_append] at hl
  have h1 : ("$" : String).length = 1 := rfl
  rw [h1] at hl
  omega

/-- Companies sheet with password cell `HASH1`. -/
def pwStore1 : Store :=
  [("companies", [companiesHeader, ["company_1", "Acme", "acme", "HASH1", "", "true"]])]

/-- The same sheet except the password cell reads `OTHER`. -/
def pwStore2 : Store :=
  [("companies", [companiesHeader, ["company_1", "Acme", "acme", "OTHER", "", "true"]])]

/-- Witness: creating `NewCo` stores `tagHash "pw"`, not `pw`, in the
password column, and the two stores differing only in a password cell
produce identical `GET /api/companies` listings. -/
theorem password_hashed_and_get_independent_witness :
    (∃ d, lookupSheet (companiesPOST tagHash noUpload "9" (some ⟨"admin", "Admin"⟩)
        sampleStore ⟨some "NewCo", some "newco", some "pw", none⟩).store "companies" = some d ∧
      d.length = sampleCompaniesSheet.length + 1 ∧
      cell (d.getD (d.length - 1) []) 3 = tagHash "pw" ∧
      cell (d.getD (d.length - 1) []) 3 ≠ "pw") ∧
    (companiesGET (some ⟨"admin", "Admin"⟩) pwStore1).companies =
      (companiesGET (some ⟨"admin", "Admin"⟩) pwStore2).companies :=
  password_hashed_and_get_independent tagHash noUpload "9" (some ⟨"admin", "Admin"⟩)
    sampleStore pwStore1 pwStore2 ⟨some "NewCo", some "newco", some "pw", none⟩
    sampleCompaniesSheet
    [companiesHeader, ["company_1", "Acme", "acme", "HASH1", "", "true"]]
    [companiesHeader, ["company_1", "Acme", "acme", "OTHER", "", "true"]]
    tagHash_ne (by decide) rfl rfl rfl (by decide) (by decide) (by decide) (by decide)
    (by decide)

/-! ## C9: PATCH /api/companies frame property -/

theorem findRowIdx_spec (p : Row → Bool) :
    ∀ (l : List Row) (i : Nat), findRowIdx p l = some i →
      i < l.length ∧ p (l.getD i []) = true
  | [], i, h => by simp [findRowIdx] at h
  | r :: rest, i, h => by
    rw [findRowIdx] at h
    by_cases hp : p r
    · rw [if_pos hp] at h
      cases h
      exact ⟨by simp, by simpa [List.getD] using hp⟩
    · rw [if_neg hp] at h
      obtain ⟨j, hj, hji⟩ := Option.map_eq_some'.mp h
      obtain ⟨hlt, hpj⟩ := findRowIdx_spec p rest j hj
      subst hji
      exact ⟨by simpa using hlt, by simpa [List.getD_cons_succ] using hpj⟩

theorem companiesRows_patch_main (st : Store) (d0 : Row) (rows : List Row) (i : Nat) (u : Row)
    (hcs : lookupSheet st "companies" = some (d0 :: rows)) :
    companiesRows (appendToSheet (deleteRow st "companies" (i + 2)) "companies" [u]) =
      rows.take i ++ rows.drop (i + 1) ++ [u] := by
  have h1 := lookupSheet_deleteRow_self st "companies" (d0 :: rows) (i + 2) hcs
  have h2 := lookupSheet_appendToSheet_self _ "companies" _ [u] h1
  unfold companiesRows
  rw [h2]
  simp only [Option.getD_some]
  rw [show i + 2 - 1 = i + 1 from rfl]
  rw [List.take_succ_cons, List.drop_succ_cons]
  simp

theorem length_take_drop_concat (rows : List Row) (i : Nat) (u : Row) (h : i < rows.length) :
    (rows.take i ++ rows.drop (i + 1) ++ [u]).length = rows.length := by
  simp only [List.length_append, List.length_take, List.length_drop, List.length_singleton]
  omega

theorem rows_decomp (rows : List Row) (i : Nat) (h : i < rows.length) :
    rows = rows.take i ++ rows.getD i [] :: rows.drop (i + 1) := by
  conv_lhs => rw [← List.take_append_drop i rows, List.drop_eq_getElem_cons h]
  rw [List.getD_eq_getElem rows [] h]

theorem mem_take_drop_concat_of_ne (rows : List Row) (i : Nat) (u r : Row)
    (hi : i < rows.length) (hr : r ∈ rows) (hne : r ≠ rows.getD i []) :
    r ∈ rows.take i ++ rows.drop (i + 1) ++ [u] := by
  rw [rows_decomp rows i hi] at hr
  rcases List.mem_append.mp hr with h1 | h2
  · exact List.mem_append.mpr (Or.inl (List.mem_append.mpr (Or.inl h1)))
  · rcases List.mem_cons.mp h2 with h3 | h4
    · exact absurd h3 hne
    · exact List.mem_append.mpr (Or.inl (List.mem_append.mpr (Or.inr h4)))

/-- C9: a `PATCH /api/companies` supplying only `id` and `enabled` for
an existing company succeeds, keeps exactly as many company rows as
before, keeps the row of every other company (different ID cell)
verbatim in the table, and yields a row that agrees with the addressed
company's old row on every cell except index 5, which now holds the
requested flag.  (The addressed row moves to the bottom of the sheet:
the route deletes it and appends the updated row.) -/
theorem patch_enabled_only_frame
    (hash : String → String) (upload : String → String → Option String) (now : String)
    (sess : Option Session) (st : Store) (idv : String) (b : Bool) (data : Sheet) (i : Nat)
    (hadm : isAdmin sess = true)
    (hid : idv ≠ "")
    (hcs : lookupSheet st "companies" = some data)
    (hfind : findRowIdx (fun r => cell r 0 = idv) (data.drop 1) = some i) :
    (companiesPATCH hash upload now sess st
        ⟨some idv, none, none, none, none, some b⟩).resp = ⟨200, none⟩ ∧
    (companiesRows (companiesPATCH hash upload now sess st
        ⟨some idv, none, none, none, none, some b⟩).store).length = (data.drop 1).length ∧
    (∀ r ∈ data.drop 1, cell r 0 ≠ idv →
      r ∈ companiesRows (companiesPATCH hash upload now sess st
        ⟨some idv, none, none, none, none, some b⟩).store) ∧
    (∃ r ∈ companiesRows (companiesPATCH hash upload now sess st
        ⟨some idv, none, none, none, none, some b⟩).store,
      cell r 5 = (if b then "true" else "false") ∧
      ∀ k, k ≠ 5 → cell r k = cell ((data.drop 1).getD i []) k) := by
  obtain ⟨hilt, hpi⟩ := findRowIdx_spec _ _ _ hfind
  have hred : companiesPATCH hash upload now sess st
      ⟨some idv, none, none, none, none, some b⟩ =
      ⟨⟨200, none⟩,
       appendToSheet (deleteRow st "companies" (i + 2)) "companies"
         [setCell ((data.drop 1).getD i []) 5 (if b then "true" else "false")]⟩ := by
    unfold companiesPATCH
    rw [if_neg (by simp [hadm])]
    rw [if_neg (by simp [truthy, hid])]
    rw [hcs]
    simp only [Option.getD_some]
    rw [hfind]
    simp [truthy, patchedCompanyRow]
  rcases data with _ | ⟨d0, rows⟩
  · simp at hilt
  · have hrows : (d0 :: rows).drop 1 = rows := rfl
    rw [hrows] at hfind hilt hpi ⊢
    rw [hred]
    have hmain := companiesRows_patch_main st d0 rows i
      (setCell (rows.getD i []) 5 (if b then "true" else "false")) hcs
    constructor
    · rfl
    refine ⟨?_, ?_, ?_⟩
    · show (companiesRows (appendToSheet (deleteRow st "companies" (i + 2)) "companies"
        [setCell (rows.getD i []) 5 (if b then "true" else "false")])).length = rows.length
      rw [hmain]
      exact length_take_drop_concat rows i _ hilt
    · intro r hr hne
      show r ∈ companiesRows (appendToSheet (deleteRow st "companies" (i + 2)) "companies"
        [setCell (rows.getD i []) 5 (if b then "true" else "false")])
      rw [hmain]
      refine mem_take_drop_concat_of_ne rows i _ r hilt hr ?_
      intro heq
      apply hne
      rw [heq]
      exact of_decide_eq_true hpi
    · refine ⟨setCell (rows.getD i []) 5 (if b then "true" else "false"), ?_, ?_, ?_⟩
      · show _ ∈ companiesRows (appendToSheet (deleteRow st "companies" (i + 2)) "companies"
          [setCell (rows.getD i []) 5 (if b then "true" else "false")])
        rw [hmain]
        exact List.mem_append.mpr (Or.inr (List.mem_singleton.mpr rfl))
      · exact cell_setCell_eq _ _ _
      · intro k hk
        exact cell_setCell_ne _ _ _ _ hk

/-- Witness: disabling `company_1` on the sample store keeps the row
count, preserves non-addressed rows (vacuously here), and flips only
cell 5 of the addressed row. -/
theorem patch_enabled_only_frame_witness :
    (companiesPATCH tagHash noUpload "9" (some ⟨"admin", "Admin"⟩) sampleStore
        ⟨some "company_1", none, none, none, none, some false⟩).resp = ⟨200, none⟩ ∧
    (companiesRows (companiesPATCH tagHash noUpload "9" (some ⟨"admin", "Admin"⟩) sampleStore
        ⟨some "company_1", none, none, none, none, some false⟩).store).length =
      (sampleCompaniesSheet.drop 1).length ∧
    (∀ r ∈ sampleCompaniesSheet.drop 1, cell r 0 ≠ "company_1" →
      r ∈ companiesRows (companiesPATCH tagHash noUpload "9" (some ⟨"admin", "Admin"⟩)
        sampleStore ⟨some "company_1", none, none, none, none, some false⟩).store) ∧
    (∃ r ∈ companiesRows (companiesPATCH tagHash noUpload "9" (some ⟨"admin", "Admin"⟩)
        sampleStore ⟨some "company_1", none, none, none, none, some false⟩).store,
      cell r 5 = (if false then "true" else "false") ∧
      ∀ k, k ≠ 5 → cell r k = cell ((sampleCompaniesSheet.drop 1).getD 0 []) k) :=
  patch_enabled_only_frame tagHash noUpload "9" (some ⟨"admin", "Admin"⟩) sampleStore
    "company_1" false sampleCompaniesSheet 0 (by decide) (by decide) (by decide) (by decide)

/-! ## C8: event creation -/

theorem setWithin_single (hdr x : Row) (hh : isTitle hdr = false) :
    setWithin [hdr] 1 x = [hdr, x] := by
  unfold setWithin
  rw [if_neg (by simp [hh])]
  rfl

theorem eventFirstRow_explicit (u : Option String) :
    eventFirstRow u = setCell (setCell (List.replicate 10 "") 8 (u.getD "")) 9 "true" := by
  have h8 : (idxOfCell "Image" eventHeaders).getD eventHeaders.length = 8 := by decide
  have h9 : (idxOfCell "Enabled" eventHeaders).getD eventHeaders.length = 9 := by decide
  rw [eventFirstRow, h8, h9]
  rfl

theorem length_eventFirstRow (u : Option String) : (eventFirstRow u).length = 10 := by
  rw [eventFirstRow_explicit, length_setCell, length_setCell, List.length_replicate]
  decide

theorem isTitle_eventFirstRow (u : Option String) : isTitle (eventFirstRow u) = false := by
  simp [isTitle, length_eventFirstRow]

theorem cell_eventFirstRow_enabled (u : Option String) : cell (eventFirstRow u) 9 = "true" := by
  rw [eventFirstRow_explicit]
  exact cell_setCell_eq _ _ _

theorem cell_eventFirstRow_image (u : Option String) : cell (eventFirstRow u) 8 = u.getD "" := by
  rw [eventFirstRow_explicit, cell_setCell_ne _ _ _ _ (by decide)]
  exact cell_setCell_eq _ _ _

theorem cell_eventFirstRow_blank (u : Option String) (k : Nat) (h8 : k ≠ 8) (h9 : k ≠ 9) :
    cell (eventFirstRow u) k = "" := by
  rw [eventFirstRow_explicit, cell_setCell_ne _ _ _ _ h9, cell_setCell_ne _ _ _ _ h8]
  exact cell_replicate _ _

/-- C8: creating an event in a company sheet that does not already
contain a table of that name appends a table whose rows are exactly the
fixed ten-column header `eventHeaders` followed by one data row with
`'true'` in the `Enabled` column (index 9), the uploaded image URL (or
`''`) in the `Image` column (index 8), and empty cells everywhere
else. -/
theorem event_created_with_fixed_header
    (upload : String → String → Option String) (now : String) (s : Session) (st : Store)
    (cn en : String) (img : Option String) (sh : Sheet)
    (hcn : cn ≠ "") (hen : en ≠ "")
    (hauth : s.type = "admin" ∨ s.name = cn)
    (hsh : lookupSheet st cn = some sh)
    (hfresh : ∀ r ∈ sh, r ≠ [en]) :
    (eventsPOST upload now (some s) st ⟨some cn, some en, img⟩).resp = ⟨200, none⟩ ∧
    getTableData (eventsPOST upload now (some s) st ⟨some cn, some en, img⟩).store cn en =
      some [eventHeaders,
        eventFirstRow (if truthy img = true then
          upload ("event_" ++ cn ++ "_" ++ en ++ "_" ++ now ++ ".jpg") (img.getD "")
        else none)] ∧
    (∀ u : Option String,
      cell (eventFirstRow u) 9 = "true" ∧ cell (eventFirstRow u) 8 = u.getD "" ∧
      ∀ k, k ≠ 8 → k ≠ 9 → cell (eventFirstRow u) k = "") := by
  have hred : eventsPOST upload now (some s) st ⟨some cn, some en, img⟩ =
      ⟨⟨200, none⟩,
       updateTableData (createTable st cn en eventHeaders) cn en 1
         (eventFirstRow (if truthy img = true then
            upload ("event_" ++ cn ++ "_" ++ en ++ "_" ++ now ++ ".jpg") (img.getD "")
          else none))⟩ := by
    unfold eventsPOST
    simp only [Option.getD_some]
    rw [if_neg (by simp [truthy, hcn, hen])]
    rcases hauth with h | h <;> rw [if_neg (by simp [h])]
  have hct : createTable st cn en eventHeaders = setSheet st cn (sh ++ [[en], eventHeaders]) := by
    unfold createTable
    rw [hsh]
  have hl1 : lookupSheet (createTable st cn en eventHeaders) cn =
      some (sh ++ [[en], eventHeaders]) := by
    rw [hct]
    exact lookupSheet_setSheet_self _ _ _ (by simp [hsh])
  have hfr : isTitle (eventFirstRow (if truthy img = true then
      upload ("event_" ++ cn ++ "_" ++ en ++ "_" ++ now ++ ".jpg") (img.getD "")
    else none)) = false := isTitle_eventFirstRow _
  refine ⟨by rw [hred], ?_, fun u => ⟨cell_eventFirstRow_enabled u, cell_eventFirstRow_image u,
    fun k h8 h9 => cell_eventFirstRow_blank u k h8 h9⟩⟩
  rw [hred]
  have hupd : updateTableData (createTable st cn en eventHeaders) cn en 1
      (eventFirstRow (if truthy img = true then
        upload ("event_" ++ cn ++ "_" ++ en ++ "_" ++ now ++ ".jpg") (img.getD "")
      else none)) =
      setSheet (createTable st cn en eventHeaders) cn
        (updInTable (sh ++ [en] :: [eventHeaders]) en 1
          (eventFirstRow (if truthy img = true then
            upload ("event_" ++ cn ++ "_" ++ en ++ "_" ++ now ++ ".jpg") (img.getD "")
          else none))) := by
    unfold updateTableData
    rw [hl1]
  show getTableData (updateTableData (createTable st cn en eventHeaders) cn en 1 _) cn en = _
  rw [hupd]
  rw [updInTable_append_fresh sh en [eventHeaders] 1 _ hfresh]
  rw [setWithin_single _ _ (by decide)]
  unfold getTableData
  rw [lookupSheet_setSheet_self _ _ _ (by simp [hl1])]
  rw [Option.some_bind]
  rw [tableRows_append_fresh sh en _ hfresh]
  have htw : (([eventHeaders, eventFirstRow (if truthy img = true then
      upload ("event_" ++ cn ++ "_" ++ en ++ "_" ++ now ++ ".jpg") (img.getD "")
    else none)] : List Row).takeWhile (fun q => ¬ isTitle q)) =
      [eventHeaders, eventFirstRow (if truthy img = true then
        upload ("event_" ++ cn ++ "_" ++ en ++ "_" ++ now ++ ".jpg") (img.getD "")
      else none)] := by
    simp [List.takeWhile_cons, hfr, show isTitle eventHeaders = false from by decide]
  rw [htw]

/-- Witness: creating `Gala` in the empty `Acme` sheet yields exactly
the header row and the enabled status row. -/
theorem event_created_with_fixed_header_witness :
    (eventsPOST noUpload "t" (some ⟨"admin", "Admin"⟩) freshEventBase
        ⟨some "Acme", some "Gala", none⟩).resp = ⟨200, none⟩ ∧
    getTableData (eventsPOST noUpload "t" (some ⟨"admin", "Admin"⟩) freshEventBase
        ⟨some "Acme", some "Gala", none⟩).store "Acme" "Gala" =
      some [eventHeaders,
        eventFirstRow (if truthy none = true then
          noUpload ("event_" ++ "Acme" ++ "_" ++ "Gala" ++ "_" ++ "t" ++ ".jpg")
            ((none : Option String).getD "")
        else none)] ∧
    (∀ u : Option String,
      cell (eventFirstRow u) 9 = "true" ∧ cell (eventFirstRow u) 8 = u.getD "" ∧
      ∀ k, k ≠ 8 → k ≠ 9 → cell (eventFirstRow u) k = "") :=
  event_created_with_fixed_header noUpload "t" ⟨"admin", "Admin"⟩ freshEventBase
    "Acme" "Gala" none [] (by decide) (by decide) (Or.inl rfl) (by decide)
    (fun r hr => absurd hr (List.not_mem_nil r))

/-! ## C4: username uniqueness -/

theorem getD_decomp (l : List String) (i : Nat) (h : i < l.length) :
    l = l.take i ++ l.getD i "" :: l.drop (i + 1) := by
  conv_lhs => rw [← List.take_append_drop i l, List.drop_eq_getElem_cons h]
  rw [List.getD_eq_getElem l "" h]

theorem perm_concat_cons {α} (A B : List α) (x : α) :
    List.Perm (A ++ B ++ [x]) (x :: (A ++ B)) :=
  List.perm_append_singleton x (A ++ B)

theorem cell_match_enabled (o : Option Bool) (u : Row) (j : Nat) (hj : j ≠ 5) :
    cell (match o with
          | some b => setCell u 5 (if b then "true" else "false")
          | none => u) j = cell u j := by
  cases o
  · rfl
  · exact cell_setCell_ne _ _ _ _ hj

theorem cell_match_upload (o : Option String) (u : Row) (j : Nat) (hj : j ≠ 4) :
    cell (match o with | some url => setCell u 4 url | none => u) j = cell u j := by
  cases o
  · rfl
  · exact cell_setCell_ne _ _ _ _ hj

theorem cell_ite_set (c : Prop) [Decidable c] (u : Row) (i : Nat) (v : String) (j : Nat)
    (hj : j ≠ i) : cell (if c then setCell u i v else u) j = cell u j := by
  split
  · exact cell_setCell_ne _ _ _ _ hj
  · rfl

theorem cell2_patchedCompanyRow (hash : String → String)
    (upload : String → String → Option String) (now idv : String)
    (req : CompanyPatchReq) (cur : Row) :
    cell (patchedCompanyRow hash upload now idv req cur) 2 =
      if truthy req.username = true then req.username.getD "" else cell cur 2 := by
  simp only [patchedCompanyRow]
  rw [cell_match_enabled _ _ 2 (by decide)]
  have himage : ∀ u3 : Row,
      cell (if truthy req.image = true then
          match upload ("company_" ++ idv ++ "_" ++ now ++ ".jpg") (req.image.getD "") with
          | some url => setCell u3 4 url
          | none => u3
        else u3) 2 = cell u3 2 := by
    intro u3
    split
    · exact cell_match_upload _ _ 2 (by decide)
    · rfl
  rw [himage, cell_ite_set _ _ 3 _ 2 (by decide)]
  by_cases hun : truthy req.username = true
  · rw [if_pos hun, if_pos hun]
    exact cell_setCell_eq _ _ _
  · rw [if_neg hun, if_neg hun]
    exact cell_ite_set _ _ 1 _ 2 (by decide)

theorem usernamesOf_eq (st : Store) (data : Sheet)
    (hex : lookupSheet st "companies" = some data) :
    usernamesOf st = (data.drop 1).map (fun r => cell r 2) := by
  unfold usernamesOf companiesRows
  rw [hex]
  rfl

theorem idsOf_eq (st : Store) (data : Sheet)
    (hex : lookupSheet st "companies" = some data) :
    idsOf st = (data.drop 1).map (fun r => cell r 0) := by
  unfold idsOf companiesRows
  rw [hex]
  rfl

theorem map_cell_decomp (rows : List Row) (i : Nat) (hi : i < rows.length) (k : Nat) :
    rows.map (fun r => cell r k) =
      (rows.take i).map (fun r => cell r k) ++
        cell (rows.getD i []) k :: (rows.drop (i + 1)).map (fun r => cell r k) := by
  conv_lhs => rw [rows_decomp rows i hi]
  simp


theorem getD_map_cell (rows : List Row) (i k : Nat) (hi : i < rows.length) :
    (rows.map (fun r => cell r k)).getD i "" = cell (rows.getD i []) k := by
  rw [List.getD_eq_getElem _ _ (by simpa using hi), List.getD_eq_getElem _ _ hi]
  simp

theorem nodup_update_at (us : List String) (i : Nat) (v : String) (hi : i < us.length)
    (hnd : us.Nodup) (hv : v = us.getD i "" ∨ v ∉ us) :
    (us.take i ++ us.drop (i + 1) ++ [v]).Nodup := by
  have hdec := getD_decomp us i hi
  have hsub : List.Sublist (us.take i ++ us.drop (i + 1)) us := by
    conv_rhs => rw [hdec]
    exact List.Sublist.append_left (List.sublist_cons_self _ _) _
  have hAB : (us.take i ++ us.drop (i + 1)).Nodup := hnd.sublist hsub
  have hx : us.getD i "" ∉ us.take i ++ us.drop (i + 1) := by
    have h2 := hnd
    rw [hdec] at h2
    rcases List.nodup_append.mp h2 with ⟨hA, hcons, hdisj⟩
    intro hmem
    rcases List.mem_append.mp hmem with hA' | hB'
    · exact hdisj hA' (List.mem_cons_self _ _)
    · exact (List.nodup_cons.mp hcons).1 hB'
  have hvnot : v ∉ us.take i ++ us.drop (i + 1) := by
    rcases hv with rfl | hnv
    · exact hx
    · intro hmem
      apply hnv
      rcases List.mem_append.mp hmem with h | h
      · exact List.take_subset _ _ h
      · exact List.drop_subset _ _ h
  exact ((perm_concat_cons _ _ v).nodup_iff).mpr (List.nodup_cons.mpr ⟨hvnot, hAB⟩)

theorem patch_usernames_nodup (hash : String → String)
    (upload : String → String → Option String) (now : String) (sess : Option Session)
    (st : Store) (req : CompanyPatchReq)
    (hu : (usernamesOf st).Nodup) (hids : (idsOf st).Nodup) :
    (usernamesOf (companiesPATCH hash upload now sess st req).store).Nodup := by
  simp only [companiesPATCH]
  split
  · exact hu
  split
  · exact hu
  split
  · exact hu
  rename_i data hex
  split
  · exact hu
  rename_i i hfind
  split
  · exact hu
  rename_i hguard
  obtain ⟨hilt, hpi⟩ := findRowIdx_spec _ _ _ hfind
  rcases data with _ | ⟨d0, rows⟩
  · simp at hilt
  have hdr1 : ((d0 :: rows : Sheet)).drop 1 = rows := rfl
  rw [hdr1] at hfind hilt hpi hguard ⊢
  show (usernamesOf (appendToSheet (deleteRow st "companies" (i + 2)) "companies"
    [patchedCompanyRow hash upload now (req.id.getD "") req (rows.getD i [])])).Nodup
  unfold usernamesOf
  rw [companiesRows_patch_main st d0 rows i _ hex]
  rw [List.map_append, List.map_append, List.map_take, List.map_drop]
  have hval := cell2_patchedCompanyRow hash upload now (req.id.getD "") req (rows.getD i [])
  rw [show ([patchedCompanyRow hash upload now (req.id.getD "") req (rows.getD i [])].map
      (fun r => cell r 2)) =
      [cell (patchedCompanyRow hash upload now (req.id.getD "") req (rows.getD i [])) 2]
    from rfl, hval]
  have hu' : ((rows.map (fun r => cell r 2))).Nodup := by
    rw [usernamesOf_eq st (d0 :: rows) hex] at hu
    exact hu
  have hids' : ((rows.map (fun r => cell r 0))).Nodup := by
    rw [idsOf_eq st (d0 :: rows) hex] at hids
    exact hids
  have hlen2 : i < (rows.map (fun r => cell r 2)).length := by simpa using hilt
  refine nodup_update_at _ i _ hlen2 hu' ?_
  by_cases hun : truthy req.username = true
  · by_cases hne : req.username.getD "" = cell (rows.getD i []) 2
    · left
      rw [if_pos hun, hne, getD_map_cell rows i 2 hilt]
    · right
      rw [if_pos hun]
      intro hmem
      obtain ⟨r, hrmem, hru⟩ := List.mem_map.mp hmem
      have hany : (rows.any fun r =>
          decide (cell r 2 = req.username.getD "" ∧ cell r 0 ≠ req.id.getD "")) = false := by
        by_contra hc
        exact hguard ⟨hun, hne, Bool.not_eq_false _ ▸ hc⟩
      have hr0 : cell r 0 = req.id.getD "" := by
        have := List.any_eq_false.mp hany r hrmem
        simp only [decide_eq_true_eq] at this
        by_contra hc
        exact this ⟨hru.symm ▸ rfl, hc⟩
      obtain ⟨j, hj, hje⟩ := List.mem_iff_getElem.mp hrmem
      by_cases hij : j = i
      · subst hij
        apply hne
        rw [← hru, ← hje, ← List.getD_eq_getElem rows [] hj]
      · have hj2 : j < (rows.map (fun r => cell r 0)).length := by simpa using hj
        have hi2 : i < (rows.map (fun r => cell r 0)).length := by simpa using hilt
        have hmapj : (rows.map (fun r => cell r 0))[j] =
            (rows.map (fun r => cell r 0))[i] := by
          simp only [List.getElem_map]
          rw [hje, hr0]
          rw [← List.getD_eq_getElem rows [] hilt]
          exact (of_decide_eq_true hpi).symm
        exact hij ((List.Nodup.getElem_inj_iff hids').mp hmapj)
  · left
    rw [if_neg hun, getD_map_cell rows i 2 hilt]

theorem post_usernames_nodup (hash : String → String)
    (upload : String → String → Option String) (now : String) (sess : Option Session)
    (st : Store) (req : CompanyPostReq)
    (hu : (usernamesOf st).Nodup) :
    (usernamesOf (companiesPOST hash upload now sess st req).store).Nodup := by
  simp only [companiesPOST]
  split
  · exact hu
  split
  · exact hu
  by_cases hex : (lookupSheet st "companies").isSome
  · obtain ⟨data, hdata⟩ := Option.isSome_iff_exists.mp hex
    simp only [hdata, Option.isSome_some, if_true]
    split
    · exact hu
    rename_i hfreshu
    have happ := lookupSheet_appendToSheet_self st "companies" data
      [["company_" ++ now, req.name.getD "", req.username.getD "",
        hash (req.password.getD ""),
        (if truthy req.image = true then
            upload ("company_" ++ ("company_" ++ now) ++ "_" ++ now ++ ".jpg")
              (req.image.getD "")
          else none).getD ""]] hdata
    have hcr := lookupSheet_createSheet_of_some _ (req.name.getD "") _ _ happ
    unfold usernamesOf companiesRows
    rw [hcr]
    simp only [Option.getD_some]
    rcases data with _ | ⟨d0, rows⟩
    · simp
    simp only [List.cons_append, List.drop_succ_cons, List.drop_zero]
    rw [List.map_append]
    have hu' : ((rows.map (fun r => cell r 2))).Nodup := by
      rw [usernamesOf_eq st (d0 :: rows) hdata] at hu
      exact hu
    have hnotmem : req.username.getD "" ∉ rows.map (fun r => cell r 2) := by
      intro hmem
      obtain ⟨r, hrmem, hru⟩ := List.mem_map.mp hmem
      have := List.any_eq_false.mp (Bool.not_eq_true _ ▸ hfreshu) r hrmem
      simp only [decide_eq_true_eq] at this
      exact this hru
    exact ((List.perm_append_singleton _ _).nodup_iff).mpr
      (List.nodup_cons.mpr ⟨by simpa using hnotmem, hu'⟩)
  · have hnone : lookupSheet st "companies" = none := Option.not_isSome_iff_eq_none.mp hex
    have hexf : (lookupSheet st "companies").isSome = false := by simp [hnone]
    simp only [hexf, Bool.false_eq_true, if_false]
    have hfr := lookupSheet_fresh_sheet st "companies" [companiesHeader] hnone
    simp only [hfr]
    rw [if_neg (by simp)]
    have happ := lookupSheet_appendToSheet_self _ "companies" [companiesHeader]
      [["company_" ++ now, req.name.getD "", req.username.getD "",
        hash (req.password.getD ""),
        (if truthy req.image = true then
            upload ("company_" ++ ("company_" ++ now) ++ "_" ++ now ++ ".jpg")
              (req.image.getD "")
          else none).getD ""]] hfr
    have hcr := lookupSheet_createSheet_of_some _ (req.name.getD "") _ _ happ
    unfold usernamesOf companiesRows
    rw [hcr]
    simp

theorem post_reject_unchanged (hash : String → String)
    (upload : String → String → Option String) (now : String) (sess : Option Session)
    (st : Store) (req : CompanyPostReq)
    (h : (companiesPOST hash upload now sess st req).resp =
      ⟨400, some "Username already exists"⟩) :
    (companiesPOST hash upload now sess st req).store = st := by
  simp only [companiesPOST] at h ⊢
  by_cases h1 : ¬ isAdmin sess = true
  · rw [if_pos h1] at h
    simp at h
  · rw [if_neg h1] at h ⊢
    by_cases h2 : ¬ truthy req.name = true ∨ ¬ truthy req.username = true ∨
        ¬ truthy req.password = true
    · rw [if_pos h2] at h
      simp at h
    · rw [if_neg h2] at h ⊢
      by_cases hex : (lookupSheet st "companies").isSome
      · obtain ⟨data, hdata⟩ := Option.isSome_iff_exists.mp hex
        simp only [hdata, Option.isSome_some, if_true] at h ⊢
        by_cases hany : ((data.drop 1).any fun r => decide (cell r 2 = req.username.getD "")) =
            true
        · rw [if_pos hany]
        · rw [if_neg hany] at h
          simp at h
      · have hnone := Option.not_isSome_iff_eq_none.mp hex
        have hexf : (lookupSheet st "companies").isSome = false := by simp [hnone]
        simp only [hexf, Bool.false_eq_true, if_false] at h ⊢
        have hfr := lookupSheet_fresh_sheet st "companies" [companiesHeader] hnone
        simp only [hfr] at h
        rw [if_neg (by simp)] at h
        simp at h

theorem patch_reject_unchanged (hash : String → String)
    (upload : String → String → Option String) (now : String) (sess : Option Session)
    (st : Store) (req : CompanyPatchReq)
    (h : (companiesPATCH hash upload now sess st req).resp =
      ⟨400, some "Username already exists"⟩) :
    (companiesPATCH hash upload now sess st req).store = st := by
  simp only [companiesPATCH] at h ⊢
  by_cases h1 : ¬ isAdmin sess = true
  · rw [if_pos h1] at h
    simp at h
  · rw [if_neg h1] at h ⊢
    by_cases h2 : ¬ truthy req.id = true
    · rw [if_pos h2] at h
      simp at h
    · rw [if_neg h2] at h ⊢
      cases hex : lookupSheet st "companies" with
      | none =>
        simp only [hex] at h ⊢
      | some data =>
        simp only [hex] at h ⊢
        cases hfind : findRowIdx (fun r => decide (cell r 0 = req.id.getD "")) (data.drop 1) with
        | none =>
          simp only [hfind] at h ⊢
        | some i =>
          simp only [hfind] at h ⊢
          by_cases hg : truthy req.username = true ∧
              req.username.getD "" ≠ cell ((data.drop 1).getD i []) 2 ∧
              ((data.drop 1).any fun r =>
                decide (cell r 2 = req.username.getD "" ∧ cell r 0 ≠ req.id.getD "")) = true
          · rw [if_pos hg]
          · rw [if_neg hg] at h
            simp at h

/-- C4 (amended): starting from a companies table whose usernames are
pairwise distinct and whose IDs are pairwise distinct, every
`POST /api/companies` and every `PATCH /api/companies` either answers
400 `Username already exists` leaving the store unchanged, or leaves
the usernames pairwise distinct (indeed the username column stays
duplicate-free after every such request).  The ID-distinctness
hypothesis is necessary: with colliding IDs the PATCH duplicate check
(`row[0] !== id`) skips the clashing row. -/
theorem username_uniqueness_invariant
    (hash : String → String) (upload : String → String → Option String) (now : String)
    (sess : Option Session) (st : Store) (reqP : CompanyPostReq) (reqQ : CompanyPatchReq)
    (hu : (usernamesOf st).Nodup) (hids : (idsOf st).Nodup) :
    (usernamesOf (companiesPOST hash upload now sess st reqP).store).Nodup ∧
    ((companiesPOST hash upload now sess st reqP).resp =
        ⟨400, some "Username already exists"⟩ →
      (companiesPOST hash upload now sess st reqP).store = st) ∧
    (usernamesOf (companiesPATCH hash upload now sess st reqQ).store).Nodup ∧
    ((companiesPATCH hash upload now sess st reqQ).resp =
        ⟨400, some "Username already exists"⟩ →
      (companiesPATCH hash upload now sess st reqQ).store = st) :=
  ⟨post_usernames_nodup hash upload now sess st reqP hu,
   post_reject_unchanged hash upload now sess st reqP,
   patch_usernames_nodup hash upload now sess st reqQ hu hids,
   patch_reject_unchanged hash upload now sess st reqQ⟩

/-- Witness: on the sample store (distinct usernames and IDs), a POST
reusing the username `acme` is rejected unchanged, and a PATCH renaming
`company_1` keeps the username column duplicate-free. -/
theorem username_uniqueness_invariant_witness :
    (usernamesOf (companiesPOST tagHash noUpload "9" (some ⟨"admin", "Admin"⟩) sampleStore
        ⟨some "B", some "acme", some "pw", none⟩).store).Nodup ∧
    ((companiesPOST tagHash noUpload "9" (some ⟨"admin", "Admin"⟩) sampleStore
        ⟨some "B", some "acme", some "pw", none⟩).resp =
        ⟨400, some "Username already exists"⟩ →
      (companiesPOST tagHash noUpload "9" (some ⟨"admin", "Admin"⟩) sampleStore
        ⟨some "B", some "acme", some "pw", none⟩).store = sampleStore) ∧
    (usernamesOf (companiesPATCH tagHash noUpload "9" (some ⟨"admin", "Admin"⟩) sampleStore
        ⟨some "company_1", none, some "freshname", none, none, none⟩).store).Nodup ∧
    ((companiesPATCH tagHash noUpload "9" (some ⟨"admin", "Admin"⟩) sampleStore
        ⟨some "company_1", none, some "freshname", none, none, none⟩).resp =
        ⟨400, some "Username already exists"⟩ →
      (companiesPATCH tagHash noUpload "9" (some ⟨"admin", "Admin"⟩) sampleStore
        ⟨some "company_1", none, some "freshname", none, none, none⟩).store = sampleStore) :=
  username_uniqueness_invariant tagHash noUpload "9" (some ⟨"admin", "Admin"⟩) sampleStore
    ⟨some "B", some "acme", some "pw", none⟩
    ⟨some "company_1", none, some "freshname", none, none, none⟩
    (by decide) (by decide)

/-! ## C6: the derived registration count -/

theorem cell_singleton (a : String) : cell [a] 0 = a := rfl

theorem sheetEvents_mem (data : Sheet) (i : Nat) (e : String) (tb : List Row)
    (hi : i < data.length) (hrow : data.getD i [] = [e]) (he : e ≠ "")
    (hid : startsWithID e = false) (htr : tableRows data e = some tb) :
    (⟨e, e,
      (match idxOfCell "Image" (data.getD (i + 1) []) with
       | some j => if i + 2 < data.length ∧ cell (data.getD (i + 2) []) j ≠ "" then
           some (cell (data.getD (i + 2) []) j) else none
       | none => none),
      (! (match idxOfCell "Enabled" (data.getD (i + 1) []) with
          | some j => decide (i + 2 < data.length ∧ cell (data.getD (i + 2) []) j = "false")
          | none => false)),
      tb.length - 1⟩ : EventOut) ∈ sheetEvents data := by
  unfold sheetEvents
  refine List.mem_filterMap.mpr ⟨i, List.mem_range.mpr hi, ?_⟩
  simp only [hrow, cell_singleton]
  rw [if_pos ⟨rfl, he, by simp [hid]⟩]
  simp only [htr]

/-- C6 (amended): the `registrations` field reported by
`GET /api/events` is derived from the stored rows as
`tableLength - 1`, which is one MORE than the number of registrant
rows, because the first row after the header is the image/enabled
status row: an event whose table is header, status row and `regs`
registrant rows reports `regs.length + 1` (so a fresh event reports 1,
not 0), and each successful registration appends one row to the table,
increasing the reported count by exactly 1. -/
theorem registrations_count_amended
    (s : Session) (st : Store) (cp cn : String) (data : Sheet) (i : Nat) (e : String)
    (hdr statusRow : Row) (regs : List Row)
    (hcp : cp ≠ "") (hdcp : decodeURIComponent cp = some cn)
    (hauth : s.type = "admin" ∨ s.name = cn)
    (hdata : lookupSheet st cn = some data)
    (hi : i < data.length) (hrow : data.getD i [] = [e])
    (he : e ≠ "") (hid : startsWithID e = false)
    (htr : tableRows data e = some (hdr :: statusRow :: regs))
    (now : String) (req : RegisterReq) (raw rcn : String) (cd : Sheet) (comp : Row)
    (sh : Sheet) (t : List Row)
    (hv : RegValid req raw rcn)
    (hcd : lookupSheet st "companies" = some cd)
    (hfind : (cd.drop 1).find? (fun r => cell r 1 = rcn) = some comp)
    (hen : cell comp 5 ≠ "false")
    (hsh : lookupSheet st rcn = some sh)
    (hshne : sh.isEmpty = false)
    (ht : getTableData st rcn (req.eventName.getD "") = some t)
    (htne : t.isEmpty = false)
    (hed : eventDisabled t = false)
    (hnodup : ((t.drop 1).any
      (fun r => cell r 2 = req.email.getD "" ∨ cell r 1 = req.phone.getD "")) = false) :
    (∃ ev ∈ (eventsGET (some s) st (some cp)).events,
       ev.id = e ∧ ev.registrations = regs.length + 1) ∧
    ((getTableData (registerPOST now st req).store rcn (req.eventName.getD "")).map
       List.length = some (t.length + 1)) := by
  constructor
  · have hget : (eventsGET (some s) st (some cp)).events = sheetEvents data := by
      unfold eventsGET
      simp only [Option.getD_some, hdcp, hdata]
      rw [if_neg (by simp [truthy, hcp])]
      rcases hauth with h | h <;> rw [if_neg (by simp [h])]
    rw [hget]
    exact ⟨_, sheetEvents_mem data i e (hdr :: statusRow :: regs) hi hrow he hid htr,
      rfl, by simp⟩
  · have hred : registerPOST now st req =
        ⟨⟨200, none⟩, addToTable st rcn (req.eventName.getD "") (registrationRow req now)⟩ := by
      unfold registerPOST
      rw [decodeCompanyName_of_valid req raw rcn hv]
      simp only [missingFields_false_of_valid req raw rcn hv, hv.emailV, hv.phoneV, hcd, hfind,
        hsh, hshne, ht, htne, hed, hnodup]
      simp [hen]
    rw [hred]
    rw [getTableData_addToTable st rcn (req.eventName.getD "") (registrationRow req now) t
      rfl ht]
    simp

/-- Witness: on the sample store, event `Party` (status row, zero
registrant rows) is reported with `registrations = 1`, and the sample
registration grows its table from 2 to 3 rows. -/
theorem registrations_count_amended_witness :
    (∃ ev ∈ (eventsGET (some ⟨"admin", "Admin"⟩) sampleStore (some "Acme")).events,
       ev.id = "Party" ∧ ev.registrations = ([] : List Row).length + 1) ∧
    ((getTableData (registerPOST "T" sampleStore sampleRegisterReq).store "Acme"
        (sampleRegisterReq.eventName.getD "")).map List.length =
      some (([eventHeaders, sampleStatusRow] : List Row).length + 1)) :=
  registrations_count_amended ⟨"admin", "Admin"⟩ sampleStore "Acme" "Acme"
    [["Party"], eventHeaders, sampleStatusRow] 0 "Party" eventHeaders sampleStatusRow []
    (by decide) (by decide) (Or.inl rfl) (by decide) (by decide) (by decide) (by decide)
    (by decide) (by decide)
    "T" sampleRegisterReq "Acme" "Acme" sampleCompaniesSheet
    ["company_1", "Acme", "acme", "h1", "", "true"]
    [["Party"], eventHeaders, sampleStatusRow] [eventHeaders, sampleStatusRow]
    ⟨rfl, by decide, by decide, rfl, rfl, rfl, rfl, rfl, rfl, rfl, rfl, by decide, by decide⟩
    (by decide) (by decide) (by decide) (by decide) (by decide) (by decide) (by decide)
    (by decide) (by decide)
